import Mathlib

/-! # PngToPnmConverter: a shallow embedding of `src/main.c`

Bytes (`unsigned char`) and `unsigned int` values are natural numbers; every
place where the C arithmetic is done on `unsigned int` carries an explicit
reduction modulo `2^32` (`u32`), every store into a byte an explicit
reduction modulo `256`.  A C buffer is the list of its bytes; `p[k]` is
`List.getD p k 0` and `p[k] = v` is `List.set p k v`.  Reading or writing
outside the block is undefined in C; the statements below always assume the
block covers what is accessed.
-/

namespace PngToPnm

/-! ## Return codes -/

/-- Modelled from the spec: the header `return_codes.h` is not part of the
sources.  The spec (§6) gives success the value zero and every error
category a distinct non-zero code; the constructors carry the names that
`main.c` uses. -/
inductive RetCode where
  | SUCCESS
  | ERROR_CANNOT_OPEN_FILE
  | ERROR_OUT_OF_MEMORY
  | ERROR_DATA_INVALID
  | ERROR_PARAMETER_INVALID
  | ERROR_UNSUPPORTED
  | ERROR_UNKNOWN
  deriving DecidableEq, Repr

open RetCode

/-! ## Machine arithmetic and loops -/

/-- Reduction of a value to `unsigned int` (32 bits). -/
def u32 (n : Nat) : Nat := n % 4294967296

/-- The loop `for (i = lo; i < lo + n; i++) s = body i s`, given by the
number `n` of iterations that remain and the current counter. -/
def forLoop {σ : Type} (body : Nat → σ → σ) : Nat → Nat → σ → σ
  | 0, _, s => s
  | n + 1, i, s => forLoop body n (i + 1) (body i s)

/-- Source: `uint bigEndianToUint32(const byte *buf)`: the pointer is `buf` at offset
`off`. -/
def bigEndianToUint32 (buf : List Nat) (off : Nat) : Nat :=
  u32 (buf.getD off 0 * 16777216) ||| u32 (buf.getD (off + 1) 0 * 65536)
    ||| u32 (buf.getD (off + 2) 0 * 256) ||| buf.getD (off + 3) 0

/-! ## Scanline reconstruction -/

/-- Source: `void applySubFilter(byte *scanline, uint rowSize, int bytesPerPixel)`;
`scanline` is the buffer `buf` at offset `scanline`. -/
def applySubFilter (buf : List Nat) (scanline rowSize bytesPerPixel : Nat) : List Nat :=
  forLoop
    (fun i b =>
      b.set (scanline + i)
        ((b.getD (scanline + i) 0 + b.getD (scanline + (i - bytesPerPixel)) 0) % 256))
    (rowSize - bytesPerPixel) bytesPerPixel buf

/-- Source: `void applyUpFilter(byte *uncompressedBuffer, uint rowIndex, uint rowSize)`. -/
def applyUpFilter (uncompressedBuffer : List Nat) (rowIndex rowSize : Nat) : List Nat :=
  if rowIndex = 0 then uncompressedBuffer
  else
    let currentScanline := u32 (rowIndex * u32 (rowSize + 1)) + 1
    let prevScanline := u32 (u32 (rowIndex - 1) * u32 (rowSize + 1)) + 1
    forLoop
      (fun i b =>
        b.set (currentScanline + i)
          ((b.getD (currentScanline + i) 0 + b.getD (prevScanline + i) 0) % 256))
      rowSize 0 uncompressedBuffer

/-- Source: `void applyAverageFilter(byte *uncompressedBuffer, uint rowIndex, uint
rowSize, int bytesPerPixel)`; `prevScanline == NULL` is `rowIndex = 0`. -/
def applyAverageFilter (uncompressedBuffer : List Nat) (rowIndex rowSize bytesPerPixel : Nat) :
    List Nat :=
  let currentScanline := u32 (rowIndex * u32 (rowSize + 1)) + 1
  let prevScanline := u32 (u32 (rowIndex - 1) * u32 (rowSize + 1)) + 1
  forLoop
    (fun i buf =>
      let a := if i < bytesPerPixel then 0 else buf.getD (currentScanline + (i - bytesPerPixel)) 0
      let b := if rowIndex = 0 then 0 else buf.getD (prevScanline + i) 0
      buf.set (currentScanline + i) ((buf.getD (currentScanline + i) 0 + (a + b) / 2) % 256))
    rowSize 0 uncompressedBuffer

/-- Source: `byte paethPredictor(int a, int b, int c)`; the result is cast to a
byte. -/
def paethPredictor (a b c : Int) : Nat :=
  let p := a + b - c
  let pa := Int.natAbs (p - a)
  let pb := Int.natAbs (p - b)
  let pc := Int.natAbs (p - c)
  if pa ≤ pb ∧ pa ≤ pc then (a % 256).toNat
  else if pb ≤ pc then (b % 256).toNat
  else (c % 256).toNat

/-- Source: `void applyPaethFilter(byte *uncompressedBuffer, uint rowIndex, uint
rowSize, int bytesPerPixel)`. -/
def applyPaethFilter (uncompressedBuffer : List Nat) (rowIndex rowSize bytesPerPixel : Nat) :
    List Nat :=
  let currentScanline := u32 (rowIndex * u32 (rowSize + 1)) + 1
  let prevScanline := u32 (u32 (rowIndex - 1) * u32 (rowSize + 1)) + 1
  forLoop
    (fun i buf =>
      let a := if i < bytesPerPixel then 0 else buf.getD (currentScanline + (i - bytesPerPixel)) 0
      let b := if rowIndex = 0 then 0 else buf.getD (prevScanline + i) 0
      let c := if i < bytesPerPixel ∨ rowIndex = 0 then 0
        else buf.getD (prevScanline + (i - bytesPerPixel)) 0
      buf.set (currentScanline + i)
        ((buf.getD (currentScanline + i) 0 + paethPredictor a b c) % 256))
    rowSize 0 uncompressedBuffer

/-- The declaration `int bytesPerPixel = (colorType == 2) ? 3 : 1;`, the first line of
`applyFilters`. -/
def bytesPerPixel (colorType : Nat) : Nat := if colorType = 2 then 3 else 1

/-- The body of the row loop of `applyFilters`: the `switch (filterType)` for
row `rowIndex`.  `none` is the `default:` branch, which returns
`ERROR_DATA_INVALID`. -/
def applyFiltersRow (uncompressedBuffer : List Nat) (rowIndex rowSize bytesPerPixel : Nat) :
    Option (List Nat) :=
  let filterType := uncompressedBuffer.getD (u32 (rowIndex * u32 (rowSize + 1))) 0
  match filterType with
  | 0 => some uncompressedBuffer
  | 1 =>
    some (applySubFilter uncompressedBuffer (u32 (rowIndex * u32 (rowSize + 1)) + 1)
      rowSize bytesPerPixel)
  | 2 => some (applyUpFilter uncompressedBuffer rowIndex rowSize)
  | 3 => some (applyAverageFilter uncompressedBuffer rowIndex rowSize bytesPerPixel)
  | 4 => some (applyPaethFilter uncompressedBuffer rowIndex rowSize bytesPerPixel)
  | _ => none

/-- The loop `for (rowIndex = ...; rowIndex < height; rowIndex++)` of
`applyFilters`, given by the number of rows that remain.  The buffer is
changed in place, so the result carries it on both exits. -/
def applyFiltersLoop (rowSize bytesPerPixel : Nat) : Nat → Nat → List Nat → RetCode × List Nat
  | 0, _, buf => (SUCCESS, buf)
  | n + 1, rowIndex, buf =>
    match applyFiltersRow buf rowIndex rowSize bytesPerPixel with
    | some buf1 => applyFiltersLoop rowSize bytesPerPixel n (rowIndex + 1) buf1
    | none => (ERROR_DATA_INVALID, buf)

/-- Source: `int applyFilters(byte *uncompressedBuffer, uint width, uint height, uint
colorType)`: the return code and the buffer as the call leaves it. -/
def applyFilters (uncompressedBuffer : List Nat) (width height colorType : Nat) :
    RetCode × List Nat :=
  let rowSize := u32 (width * bytesPerPixel colorType)
  applyFiltersLoop rowSize (bytesPerPixel colorType) height 0 uncompressedBuffer

/-! ## The input stream -/

/-- A `FILE *` opened for reading: the bytes of the file, the position
indicator and the end-of-file indicator. -/
structure FILE where
  content : List Nat
  pos : Nat
  eof : Bool
  deriving DecidableEq, Repr

/-- The library call `fread(ptr, 1, n, file)`: the bytes obtained (as many
of the `n` as the file still has) and the stream afterwards; a short read
sets the end-of-file indicator. -/
def fread (file : FILE) (n : Nat) : List Nat × FILE :=
  let got := (file.content.drop file.pos).take n
  (got, { file with pos := file.pos + got.length, eof := file.eof || decide (got.length < n) })

/-- The library call `fseek(file, offset, SEEK_CUR)` with an offset that is
not negative: it moves the position, clears the end-of-file indicator and
succeeds (a regular file can be positioned past its end).  The offsets of
the program are `unsigned int` values, which a 64-bit `long` takes
unchanged. -/
def fseek (file : FILE) (offset : Nat) : FILE :=
  { file with pos := file.pos + offset, eof := false }

/-- The library call `feof(file)`. -/
def feof (file : FILE) : Bool := file.eof

/-- The type `typedef struct { uint data_size; byte type[4]; byte *data; }
chunk;` with `data = none` for the `NULL` pointer. -/
structure chunk where
  data_size : Nat
  type : List Nat
  data : Option (List Nat)
  deriving DecidableEq, Repr

/-- What the C library decides for the program: whether `malloc(n)` returns a
block, and whether `realloc(p, n)` does (the flag tells whether `p` is a
block rather than `NULL`).  A request of size zero may yield `NULL` or a
block, as the implementation chooses. -/
structure Libc where
  malloc : Nat → Bool
  realloc : Bool → Nat → Bool

/-- Source: `int readPngSignature(FILE *file)`. -/
def readPngSignature (file : FILE) : RetCode × FILE :=
  let (signature, file1) := fread file 8
  if signature.length ≠ 8 then (ERROR_DATA_INVALID, file1)
  else if ¬ (signature.getD 0 0 = 137 ∧ signature.getD 1 0 = 80 ∧ signature.getD 2 0 = 78 ∧
      signature.getD 3 0 = 71 ∧ signature.getD 4 0 = 13 ∧ signature.getD 5 0 = 10 ∧
      signature.getD 6 0 = 26 ∧ signature.getD 7 0 = 10) then (ERROR_DATA_INVALID, file1)
  else (SUCCESS, file1)

/-- Source: `int readChunk(FILE *file, uint *data_size, byte *type)`: the return
code, the values left in `*data_size` and `type`, and the stream.  No caller
uses the two values after a failure; they are given as `0` and the bytes
read. -/
def readChunk (file : FILE) : RetCode × Nat × List Nat × FILE :=
  let (tempSize, file1) := fread file 4
  if tempSize.length ≠ 4 then (ERROR_DATA_INVALID, 0, [], file1)
  else
    let data_size := bigEndianToUint32 tempSize 0
    let (type, file2) := fread file1 4
    if type.length ≠ 4 then (ERROR_DATA_INVALID, data_size, type, file2)
    else (SUCCESS, data_size, type, file2)

/-- Source: `int readIHDRChunk(FILE *file, chunk *ihdr)`: the return code, the chunk
as the call leaves it and the stream.  `ihdr` is passed in with the values
its fields have before the call. -/
def readIHDRChunk (libc : Libc) (file : FILE) (ihdr : chunk) : RetCode × chunk × FILE :=
  let (err, data_size, type, file1) := readChunk file
  let ihdr1 : chunk := { ihdr with data_size := data_size, type := type }
  if err ≠ SUCCESS then (ERROR_DATA_INVALID, ihdr1, file1)
  else if data_size ≠ 13 then (ERROR_DATA_INVALID, ihdr1, file1)
  else if ¬ (type.getD 0 0 = 73 ∧ type.getD 1 0 = 72 ∧ type.getD 2 0 = 68 ∧ type.getD 3 0 = 82)
    then (ERROR_DATA_INVALID, ihdr1, file1)
  else if libc.malloc data_size = false then (ERROR_OUT_OF_MEMORY, { ihdr1 with data := none }, file1)
  else
    let (data, file2) := fread file1 data_size
    let ihdr2 : chunk := { ihdr1 with data := some data }
    if data.length ≠ data_size then (ERROR_DATA_INVALID, ihdr2, file2)
    else if data.getD 8 0 ≠ 8 then (ERROR_UNSUPPORTED, ihdr2, file2)
    else (SUCCESS, ihdr2, fseek file2 4)

/-- The objects `readAndProcessChunks` works on through its pointer
arguments: the stream, `*buffer` (`none` for `NULL`), `*bufferSize` and
`*plte`. -/
structure Assembly where
  file : FILE
  buffer : Option (List Nat)
  bufferSize : Nat
  plte : chunk
  deriving DecidableEq, Repr

/-- Lines 146-151 of `readAndProcessChunks`: the check behind the loop. -/
def readAndProcessChunksEnd (s : Assembly) : RetCode × Assembly :=
  if s.buffer = none then (ERROR_DATA_INVALID, s) else (SUCCESS, s)

/-- One pass through the body of the `while (!feof(file))` loop of
`readAndProcessChunks`, entered with the loop condition true: `Sum.inl` is a
`return` or the `break` (followed by the check behind the loop), `Sum.inr`
the state with which the loop goes round again.

For an `IDAT` chunk, `realloc` keeps the first `*bufferSize` bytes of the
block and `fread` stores the payload behind them.  The `fseek` over a chunk
of another type succeeds (see `fseek`), so its error branch does not
arise. -/
def readAndProcessChunksBody (libc : Libc) (colorType : Nat) (s : Assembly) :
    (RetCode × Assembly) ⊕ Assembly :=
  let (err, data_size, type, file1) := readChunk s.file
  if err ≠ SUCCESS then Sum.inl (ERROR_DATA_INVALID, { s with file := file1 })
  else if type.getD 0 0 = 73 ∧ type.getD 1 0 = 69 ∧ type.getD 2 0 = 78 ∧ type.getD 3 0 = 68 then
    if s.buffer = none then Sum.inl (ERROR_DATA_INVALID, { s with file := file1 })
    else Sum.inl (readAndProcessChunksEnd { s with file := file1 })
  else if type.getD 0 0 = 73 ∧ type.getD 1 0 = 68 ∧ type.getD 2 0 = 65 ∧ type.getD 3 0 = 84 then
    if libc.realloc s.buffer.isSome (u32 (s.bufferSize + data_size)) = false then
      Sum.inl (ERROR_OUT_OF_MEMORY, { s with file := file1 })
    else
      let (payload, file2) := fread file1 data_size
      let buffer1 := (s.buffer.getD []).take s.bufferSize ++ payload
      if payload.length ≠ data_size then
        Sum.inl (ERROR_DATA_INVALID, { s with file := file2, buffer := some buffer1 })
      else
        Sum.inr { s with file := fseek file2 4, buffer := some buffer1,
                         bufferSize := u32 (s.bufferSize + data_size) }
  else if type.getD 0 0 = 80 ∧ type.getD 1 0 = 76 ∧ type.getD 2 0 = 84 ∧ type.getD 3 0 = 69 then
    if colorType ≠ 3 then Sum.inl (ERROR_DATA_INVALID, { s with file := file1 })
    else
      let plte1 : chunk := { data_size := data_size, type := type, data := s.plte.data }
      if libc.malloc data_size = false then
        Sum.inl (ERROR_OUT_OF_MEMORY, { s with file := file1, plte := { plte1 with data := none } })
      else
        let (data, file2) := fread file1 data_size
        let plte2 : chunk := { plte1 with data := some data }
        if data.length ≠ data_size then
          Sum.inl (ERROR_DATA_INVALID, { s with file := file2, plte := plte2 })
        else Sum.inr { s with file := fseek file2 4, plte := plte2 }
  else Sum.inr { s with file := fseek file1 (u32 (data_size + 4)) }

/-- The `while (!feof(file))` loop of `readAndProcessChunks` and the check
behind it, run for at most `fuel` passes; `none` when the passes do not
suffice. -/
def readAndProcessChunksLoop (libc : Libc) (colorType : Nat) :
    Nat → Assembly → Option (RetCode × Assembly)
  | 0, _ => none
  | fuel + 1, s =>
    if feof s.file then some (readAndProcessChunksEnd s)
    else
      match readAndProcessChunksBody libc colorType s with
      | Sum.inl r => some r
      | Sum.inr s1 => readAndProcessChunksLoop libc colorType fuel s1

/-- Source: `int readAndProcessChunks(FILE *file, byte **buffer, uint *bufferSize,
chunk *plte, uint colorType)`.  Every pass that goes round again has read
eight bytes of the file, so one pass more than the file has bytes is
enough (`readAndProcessChunks_returns`). -/
def readAndProcessChunks (libc : Libc) (s : Assembly) (colorType : Nat) :
    Option (RetCode × Assembly) :=
  readAndProcessChunksLoop libc colorType (s.file.content.length + 1) s

/-! ## Format selection and emission -/

/-- The loop of `getPNMFormat` over the palette entries: the format that is
stored, `6` at the first entry whose three bytes are not all equal, `5` when
the loop runs out. -/
def getPNMFormatLoop (data : List Nat) : Nat → Nat → Nat
  | 0, _ => 5
  | n + 1, i =>
    if data.getD (i * 3) 0 ≠ data.getD (i * 3 + 1) 0 ∨ data.getD (i * 3) 0 ≠ data.getD (i * 3 + 2) 0
    then 6
    else getPNMFormatLoop data n (i + 1)

/-- Source: `int getPNMFormat(chunk *plte, int *format)`: the return code and the
value left in `*format`, which is the value it had when the function
fails.  With `plte->data == NULL` a read of an entry is undefined; no
statement below rests on one. -/
def getPNMFormat (plte : chunk) (format : Nat) : RetCode × Nat :=
  if plte.data_size % 3 ≠ 0 then (ERROR_DATA_INVALID, format)
  else (SUCCESS, getPNMFormatLoop (plte.data.getD []) (plte.data_size / 3) 0)

/-- The bytes of a text written by `fprintf`. -/
def textBytes (s : String) : List Nat := s.toList.map Char.toNat

/-- The three header lines every branch of `writePNM` prints: the magic
number `P5` or `P6`, then `%u %u` of width and height, then `255`. -/
def pnmHeader (format width height : Nat) : List Nat :=
  textBytes ("P" ++ toString format ++ "\n") ++
  textBytes (toString width ++ " " ++ toString height ++ "\n") ++
  textBytes "255\n"

/-- Source: `int writePNM(FILE *pnmFile, byte *uncompressedBuffer, uint
uncompressedBufferSize, uint width, uint height, uint colorType, chunk
*plte, int format)`: the return code and the bytes written to `pnmFile`.
Writes are taken to succeed, so `ERROR_UNKNOWN` does not arise.  The loop
counters are `int` compared as `unsigned`; they are modelled by their
unsigned value. -/
def writePNM (uncompressedBuffer : List Nat) (uncompressedBufferSize width height colorType : Nat)
    (plte : chunk) (format : Nat) : RetCode × List Nat :=
  match colorType with
  | 0 =>
    (SUCCESS, forLoop
      (fun i out => if i % width ≠ 0 then out ++ [uncompressedBuffer.getD i 0] else out)
      (u32 (u32 (width * height) * 3)) 0 (pnmHeader 5 width height))
  | 2 =>
    (SUCCESS, forLoop
      (fun i out =>
        out ++ (uncompressedBuffer.drop (u32 (i * u32 (u32 (width * 3) + 1)) + 1)).take
          (u32 (width * 3)))
      height 0 (pnmHeader 6 width height))
  | _ =>
    (SUCCESS, forLoop
      (fun i out =>
        if i % width ≠ 0 then
          out ++ ((plte.data.getD []).drop (uncompressedBuffer.getD i 0 * 3)).take 3
        else out)
      uncompressedBufferSize 0 (pnmHeader format width height))

/-! ## The pipeline -/

/-- The values of the objects `main` declares without initialising them:
`chunk ihdr;`, the fields `data_size` and `type` of `chunk plte;` (only
`plte.data` is set, to `NULL`) and `int format;`. -/
structure Locals where
  ihdr : chunk
  plte_data_size : Nat
  plte_type : List Nat
  format : Nat

/-- The declaration `uint uncompressedBufferSize = width * height * 5;` of
`main`: the capacity of the block that receives the decompressed data, the
product of two `uint` multiplications. -/
def uncompressedBufferSize (width height : Nat) : Nat := u32 (u32 (width * height) * 5)

/-- Source: `int main(int argc, char *argv[])`: the exit code and the bytes written
to the output file (`none` when the file is never opened); `none` overall
only if `readAndProcessChunks` gave no result.  `pngFile` is the result of
the first `fopen`, `pnmFile` tells whether the second one succeeds.

`uncompressData capacity buffer bufferSize` stands for the call into the
decompression library and returns the code and the contents of the output
block.  Neither back end stores the decompressed length into
`uncompressedBufferSize` of `main`: `zlibUncompress` hands zlib the address
of its own parameter, `libdeflateUncompress` receives the size through a
pointer to `const`.  So `writePNM` is called with the capacity. -/
def main (libc : Libc) (locals : Locals)
    (uncompressData : Nat → List Nat → Nat → RetCode × List Nat)
    (argc : Nat) (pngFile : Option FILE) (pnmFile : Bool) :
    Option (RetCode × Option (List Nat)) :=
  if argc ≠ 3 then some (ERROR_PARAMETER_INVALID, none)
  else
    match pngFile with
    | none => some (ERROR_CANNOT_OPEN_FILE, none)
    | some file0 =>
      let (err, file1) := readPngSignature file0
      if err ≠ SUCCESS then some (err, none)
      else
        let (err, ihdr, file2) := readIHDRChunk libc file1 locals.ihdr
        if err ≠ SUCCESS then some (err, none)
        else
          let colorType := (ihdr.data.getD []).getD 9 0
          if ¬ (colorType = 0 ∨ colorType = 2 ∨ colorType = 3) then some (ERROR_UNSUPPORTED, none)
          else
            let plte : chunk :=
              { data_size := locals.plte_data_size, type := locals.plte_type, data := none }
            match readAndProcessChunks libc ⟨file2, none, 0, plte⟩ colorType with
            | none => none
            | some (err, s) =>
              if err ≠ SUCCESS then some (err, none)
              else if s.plte.data ≠ none ∧ colorType ≠ 3 then some (ERROR_DATA_INVALID, none)
              else
                let (err, format) := getPNMFormat s.plte locals.format
                if err ≠ SUCCESS then some (err, none)
                else
                  let width := bigEndianToUint32 (ihdr.data.getD []) 0
                  let height := bigEndianToUint32 (ihdr.data.getD []) 4
                  let uncompressedBufferSize := uncompressedBufferSize width height
                  if libc.malloc uncompressedBufferSize = false then
                    some (ERROR_OUT_OF_MEMORY, none)
                  else
                    let (err, uncompressedBuffer) :=
                      uncompressData uncompressedBufferSize (s.buffer.getD []) s.bufferSize
                    if err ≠ SUCCESS then some (err, none)
                    else
                      let (err, uncompressedBuffer1) :=
                        applyFilters uncompressedBuffer width height colorType
                      if err ≠ SUCCESS then some (err, none)
                      else if pnmFile = false then some (ERROR_CANNOT_OPEN_FILE, none)
                      else
                        let (err, out) :=
                          writePNM uncompressedBuffer1 uncompressedBufferSize width height
                            colorType s.plte format
                        some (err, some out)

/-! ## The reference definitions of the specification -/

namespace Spec

/-- Spec §4.4: `PaethPredictor(a,b,c)` computes `p = a+b-c`, `pa = |p-a|`,
`pb = |p-b|`, `pc = |p-c|` and returns `a` if `pa ≤ pb ∧ pa ≤ pc`, else `b`
if `pb ≤ pc`, else `c`. -/
def PaethPredictor (a b c : Nat) : Nat :=
  let p : Int := (a : Int) + (b : Int) - (c : Int)
  let pa := (p - (a : Int)).natAbs
  let pb := (p - (b : Int)).natAbs
  let pc := (p - (c : Int)).natAbs
  if pa ≤ pb ∧ pa ≤ pc then a else if pb ≤ pc then b else c

/-- Spec §4.4, step 3: the value each filter type adds to the filtered byte:
nothing for None, `a` for Sub, `b` for Up, `floor((a+b)/2)` for Average and
the Paeth predictor for Paeth. -/
def predictor (filterType a b c : Nat) : Nat :=
  match filterType with
  | 1 => a
  | 2 => b
  | 3 => (a + b) / 2
  | 4 => PaethPredictor a b c
  | _ => 0

/-- Spec §4.4: `a = cur[i-bpp]` if `i ≥ bpp`, else 0, in the buffer `buf` of
rows of `stride` bytes. -/
def left (buf : List Nat) (stride bpp r i : Nat) : Nat :=
  if i < bpp then 0 else buf.getD (r * stride + 1 + (i - bpp)) 0

/-- Spec §4.4: `b = prev[i]`, 0 if there is no previous row. -/
def up (buf : List Nat) (stride r i : Nat) : Nat :=
  if r = 0 then 0 else buf.getD ((r - 1) * stride + 1 + i) 0

/-- Spec §4.4: `c = prev[i-bpp]` if `i ≥ bpp` and the previous row exists,
else 0. -/
def upLeft (buf : List Nat) (stride bpp r i : Nat) : Nat :=
  if i < bpp ∨ r = 0 then 0 else buf.getD ((r - 1) * stride + 1 + (i - bpp)) 0

/-- The encoder's side of spec §8 (round trip): byte `i` of row `r` of the
raster `R` filtered with type `t`, `(R[r][i] - pred_t(a,b,c)) mod 256`, where
`a`, `b`, `c` are the left, upper and upper-left bytes of `R`, 0 outside the
image. -/
def filtered (t bpp : Nat) (R : Nat → Nat → Nat) (r i : Nat) : Nat :=
  let a := if i < bpp then 0 else R r (i - bpp)
  let b := if r = 0 then 0 else R (r - 1) i
  let c := if i < bpp ∨ r = 0 then 0 else R (r - 1) (i - bpp)
  (((R r i : Int) - (predictor t a b c : Int)) % 256).toNat

/-- Row `r` of `out` is the reconstruction of row `r` of `raw` (spec §4.4,
step 3): every byte is the raw byte plus the predictor of the row's filter
type, modulo 256, the neighbours `a`, `b`, `c` being taken from `out`. -/
def Reconstructed (raw out : List Nat) (rowSize bpp r : Nat) : Prop :=
  ∀ i, i < rowSize →
    out.getD (r * (rowSize + 1) + 1 + i) 0 =
      (raw.getD (r * (rowSize + 1) + 1 + i) 0 +
        predictor (raw.getD (r * (rowSize + 1)) 0) (left out (rowSize + 1) bpp r i)
          (up out (rowSize + 1) r i) (upLeft out (rowSize + 1) bpp r i)) % 256

end Spec

/-! ## Sample inputs -/

/-- A 2x4 grayscale raster. -/
def sampleRaster (r i : Nat) : Nat := ([[5, 8], [6, 9], [0, 10], [9, 18]].getD r []).getD i 0

/-- The filter types of the rows of `sampleFiltered`: Sub, Up, Paeth,
Average. -/
def sampleTags (r : Nat) : Nat := [1, 2, 4, 3].getD r 0

/-- The raster `sampleRaster` filtered row by row with `sampleTags`, each row
behind its tag. -/
def sampleFiltered : List Nat := [1, 5, 3, 2, 1, 1, 4, 250, 10, 3, 9, 9]

/-- A 2x2 grayscale buffer whose second row is Average-filtered and has
`a = b = 255` at its second byte. -/
def sampleAverage : List Nat := [0, 255, 255, 3, 128, 1]

/-- A 1x3 grayscale buffer whose second row carries the tag 7. -/
def sampleBadTag : List Nat := [1, 10, 7, 20, 2, 30]

/-- The reconstructed buffer of the 2x2 grayscale image with all-None rows
and the pixels `[[0,255],[128,64]]`. -/
def sampleGray : List Nat := [0, 0, 255, 0, 128, 64]

/-- The `plte` of an image without a `PLTE` chunk: `data` is `NULL`. -/
def sampleNoPlte : chunk := { data_size := 0, type := [], data := none }

/-- A `PLTE` chunk with the two gray entries `(10,10,10)` and
`(200,200,200)`. -/
def samplePalette : chunk :=
  { data_size := 6, type := [80, 76, 84, 69], data := some [10, 10, 10, 200, 200, 200] }

/-- The reconstructed buffer of a 2x2 palette image with all-None rows and
the indices `[[0,1],[1,0]]`. -/
def sampleIndexed : List Nat := [0, 0, 1, 0, 1, 0]

/-- The reconstructed buffer of a 1x2 truecolor image with the pixels
`(1,2,3)` and `(4,5,6)`. -/
def sampleTruecolor : List Nat := [0, 1, 2, 3, 0, 4, 5, 6]

/-! ## The chunk container of the specification -/

namespace Spec

/-- Spec §3 and §6: a chunk of the PNG container, `(length:uint32-BE,
type:4-byte-tag, payload:length bytes, crc:4 bytes)`; the length is that of
the payload. -/
structure Chunk where
  type : List Nat
  payload : List Nat
  crc : List Nat
  deriving DecidableEq, Repr

/-- The four bytes of a 32-bit length, most significant first. -/
def be32 (n : Nat) : List Nat := [n / 16777216 % 256, n / 65536 % 256, n / 256 % 256, n % 256]

/-- The bytes of a chunk in the file. -/
def Chunk.encode (c : Chunk) : List Nat := be32 c.payload.length ++ c.type ++ c.payload ++ c.crc

/-- The bytes of a sequence of chunks, in file order. -/
def encodeChunks (cs : List Chunk) : List Nat := (cs.map Chunk.encode).flatten

/-- A chunk with a four-byte tag, a four-byte CRC and a payload whose length
plus the CRC fits 32 bits. -/
def Chunk.WellFormed (c : Chunk) : Prop :=
  c.type.length = 4 ∧ c.crc.length = 4 ∧ c.payload.length < 4294967292

instance (c : Chunk) : Decidable c.WellFormed := by
  unfold Chunk.WellFormed
  infer_instance

/-- The PNG signature `89 50 4E 47 0D 0A 1A 0A`. -/
def signature : List Nat := [137, 80, 78, 71, 13, 10, 26, 10]

/-- The tag `IEND`. -/
def IEND : List Nat := [73, 69, 78, 68]

/-- The tag `IDAT`. -/
def IDAT : List Nat := [73, 68, 65, 84]

/-- The tag `PLTE`. -/
def PLTE : List Nat := [80, 76, 84, 69]

/-- Spec §4.2: what one chunk that is not `IEND` does to the assembled state
when it is accepted: `IDAT` appends its payload to the compressed stream,
`PLTE` is captured as the palette, any other chunk is skipped; the stream
moves past the chunk. -/
def absorb (s : Assembly) (c : Chunk) : Assembly :=
  let file1 : FILE :=
    { content := s.file.content, pos := s.file.pos + c.encode.length, eof := false }
  if c.type = IDAT then
    { s with file := file1,
             buffer := some ((s.buffer.getD []).take s.bufferSize ++ c.payload),
             bufferSize := u32 (s.bufferSize + c.payload.length) }
  else if c.type = PLTE then
    { s with file := file1,
             plte := { data_size := c.payload.length, type := c.type, data := some c.payload } }
  else { s with file := file1 }

/-- Every block the chunks ask for is granted: `realloc` for each `IDAT`
chunk, given whether a block exists and the size reached so far, `malloc` for
each `PLTE` chunk. -/
def blocksGranted (libc : Libc) : List Chunk → Bool → Nat → Bool
  | [], _, _ => true
  | c :: cs, hasBlock, size =>
    if c.type = IDAT then
      libc.realloc hasBlock (u32 (size + c.payload.length)) &&
        blocksGranted libc cs true (u32 (size + c.payload.length))
    else if c.type = PLTE then
      libc.malloc c.payload.length && blocksGranted libc cs hasBlock size
    else blocksGranted libc cs hasBlock size

end Spec

/-- A C library that grants every request. -/
def sampleLibc : Libc := { malloc := fun _ => true, realloc := fun _ _ => true }

/-- An `IDAT` chunk with a payload of three bytes. -/
def sampleIdat : Spec.Chunk := { type := Spec.IDAT, payload := [120, 156, 1], crc := [0, 0, 0, 0] }

/-- An `IDAT` chunk of length 0. -/
def sampleEmptyIdat : Spec.Chunk := { type := Spec.IDAT, payload := [], crc := [0, 0, 0, 0] }

/-- An ancillary chunk (`gAMA`) with a payload of four bytes. -/
def sampleGama : Spec.Chunk :=
  { type := [103, 65, 77, 65], payload := [0, 0, 177, 143], crc := [0, 0, 0, 0] }

/-- A `PLTE` chunk with one entry. -/
def samplePlteChunk : Spec.Chunk :=
  { type := Spec.PLTE, payload := [10, 20, 30], crc := [0, 0, 0, 0] }

/-- An `IEND` chunk. -/
def sampleIend : Spec.Chunk := { type := Spec.IEND, payload := [], crc := [174, 66, 96, 130] }

/-- The state with which `main` calls `readAndProcessChunks` on a stream that
holds `content` from the position on: no block, size 0, `plte.data` `NULL`
(the other fields of `plte` are given as 0 and empty here). -/
def sampleStart (content : List Nat) : Assembly :=
  { file := { content := content, pos := 0, eof := false }, buffer := none, bufferSize := 0,
    plte := sampleNoPlte }

/-- The `IHDR` chunk of a 1x1 image of bit depth 8 and colour type 3. -/
def sampleIhdrPalette : Spec.Chunk :=
  { type := [73, 72, 68, 82], payload := [0, 0, 0, 1, 0, 0, 0, 1, 8, 3, 0, 0, 0],
    crc := [0, 0, 0, 0] }

/-- A PNG file of colour type 3 with `IHDR`, one `IDAT` and `IEND` and no
`PLTE` chunk. -/
def samplePngNoPalette : FILE :=
  { content := [137, 80, 78, 71, 13, 10, 26, 10] ++
      Spec.encodeChunks [sampleIhdrPalette, sampleIdat, sampleIend],
    pos := 0, eof := false }

/-- Locals of `main` whose uninitialised `plte.data_size` holds `junk`. -/
def sampleLocals (junk : Nat) : Locals :=
  { ihdr := sampleNoPlte, plte_data_size := junk, plte_type := [], format := 0 }

/-- A decompressor that yields the raster of a 1x1 image, tag 0 and one
sample 0, in a block of five bytes. -/
def sampleInflate : Nat → List Nat → Nat → RetCode × List Nat :=
  fun _ _ _ => (SUCCESS, [0, 0, 0, 0, 0])

/-- A decompressor that fails for lack of memory. -/
def sampleInflateFails : Nat → List Nat → Nat → RetCode × List Nat :=
  fun _ _ _ => (ERROR_OUT_OF_MEMORY, [])

/-- The tag `tEXt` of an ancillary chunk. -/
def sampleText : List Nat := [116, 69, 88, 116]

/-- A stream that begins with a chunk header of the tag `tEXt` and the length
`FF FF FF FF`, followed by three bytes and then by an `IDAT` and an `IEND`
chunk. -/
def sampleLongSkip : List Nat :=
  Spec.be32 4294967295 ++ sampleText ++ [9, 9, 9] ++ Spec.encodeChunks [sampleIdat, sampleIend]

/-- The `IHDR` chunk of a 65536x65536 image of bit depth 8 and colour type 0. -/
def sampleIhdrWide : Spec.Chunk :=
  { type := [73, 72, 68, 82], payload := [0, 1, 0, 0, 0, 1, 0, 0, 8, 0, 0, 0, 0],
    crc := [0, 0, 0, 0] }

/-- A PNG file of colour type 0 whose header declares 65536x65536 pixels. -/
def samplePngWide : FILE :=
  { content := [137, 80, 78, 71, 13, 10, 26, 10] ++
      Spec.encodeChunks [sampleIhdrWide, sampleIdat, sampleIend],
    pos := 0, eof := false }

/-- A C library whose `malloc` fails exactly for a request of 0 bytes. -/
def sampleLibcNoEmpty : Libc := { malloc := fun n => decide (n ≠ 0), realloc := fun _ _ => true }

/-- A 2x4 truecolor raster, rows of two pixels of three bytes. -/
def sampleRgbRaster (r i : Nat) : Nat :=
  ([[10, 20, 30, 40, 60, 90], [200, 100, 50, 250, 0, 7], [3, 99, 180, 77, 254, 1],
    [128, 64, 32, 16, 8, 4]].getD r []).getD i 0

/-- The filter types of the rows of `sampleRgbFiltered`: Sub, Average, Paeth,
Up. -/
def sampleRgbTags (r : Nat) : Nat := [1, 3, 4, 2].getD r 0

/-- The raster `sampleRgbRaster` filtered row by row with `sampleRgbTags` at
three bytes per pixel, each row behind its tag. -/
def sampleRgbFiltered : List Nat :=
  [1, 10, 20, 30, 30, 40, 60, 3, 195, 90, 35, 130, 176, 193, 4, 59, 255, 130, 74, 254, 77,
    2, 125, 221, 108, 195, 10, 3]

theorem u32_of_lt {n : Nat} (h : n < 4294967296) : u32 n = n := Nat.mod_eq_of_lt h

theorem getD_set_self (l : List Nat) (i v : Nat) (h : i < l.length) :
    (l.set i v).getD i 0 = v := by
  simp [List.getD_eq_getElem?_getD, List.getElem?_set, h]

theorem getD_set_of_ne (l : List Nat) (i j v : Nat) (h : i ≠ j) :
    (l.set i v).getD j 0 = l.getD j 0 := by
  simp [List.getD_eq_getElem?_getD, List.getElem?_set, h]

/-- A loop that stores into `base + i` a value that depends only on the bytes
up to `base + i`: the length is kept, the bytes outside the range of the loop
are kept, and byte `base + i` of the result is the value computed from the
result itself with byte `base + i` put back to its initial value. -/
theorem forLoop_set_spec (base : Nat) (g : Nat → List Nat → Nat)
    (hloc : ∀ i b1 b2, (∀ j, j ≤ base + i → b1.getD j 0 = b2.getD j 0) → g i b1 = g i b2) :
    ∀ (n lo : Nat) (b0 : List Nat), base + lo + n ≤ b0.length →
      (forLoop (fun i b => b.set (base + i) (g i b)) n lo b0).length = b0.length ∧
      (∀ j, j < base + lo ∨ base + lo + n ≤ j →
        (forLoop (fun i b => b.set (base + i) (g i b)) n lo b0).getD j 0 = b0.getD j 0) ∧
      (∀ i, lo ≤ i → i < lo + n →
        (forLoop (fun i b => b.set (base + i) (g i b)) n lo b0).getD (base + i) 0 =
          g i ((forLoop (fun i b => b.set (base + i) (g i b)) n lo b0).set (base + i)
            (b0.getD (base + i) 0))) := by
  intro n
  induction n with
  | zero =>
    intro lo b0 _
    refine ⟨rfl, fun j _ => rfl, fun i h1 h2 => ?_⟩
    omega
  | succ n ih =>
    intro lo b0 hlen
    have hlen1 : base + (lo + 1) + n ≤ (b0.set (base + lo) (g lo b0)).length := by
      rw [List.length_set]; omega
    obtain ⟨h1, h2, h3⟩ := ih (lo + 1) (b0.set (base + lo) (g lo b0)) hlen1
    simp only [forLoop]
    rw [List.length_set] at h1
    refine ⟨h1, ?_, ?_⟩
    · intro j hj
      rw [h2 j (by omega), getD_set_of_ne _ _ _ _ (by omega)]
    · intro i hi1 hi2
      by_cases hi : i = lo
      · subst hi
        rw [h2 (base + i) (by omega), getD_set_self _ _ _ (by omega)]
        apply hloc
        intro j hj
        by_cases hj2 : j = base + i
        · subst hj2
          rw [getD_set_self _ _ _ (by omega)]
        · rw [getD_set_of_ne _ _ _ _ (by omega), h2 j (by omega),
            getD_set_of_ne _ _ _ _ (by omega)]
      · rw [h3 i (by omega) (by omega), getD_set_of_ne _ _ _ _ (by omega)]

theorem paethPredictor_eq_spec (a b c : Nat) (ha : a < 256) (hb : b < 256) (hc : c < 256) :
    paethPredictor (a : Int) (b : Int) (c : Int) = Spec.PaethPredictor a b c := by
  unfold paethPredictor Spec.PaethPredictor
  simp only []
  split_ifs <;> omega

theorem spec_PaethPredictor_lt (a b c : Nat) (ha : a < 256) (hb : b < 256) (hc : c < 256) :
    Spec.PaethPredictor a b c < 256 := by
  unfold Spec.PaethPredictor
  simp only []
  split_ifs <;> omega

theorem spec_predictor_lt (t a b c : Nat) (ha : a < 256) (hb : b < 256) (hc : c < 256) :
    Spec.predictor t a b c < 256 := by
  unfold Spec.predictor
  split
  · exact ha
  · exact hb
  · omega
  · exact spec_PaethPredictor_lt a b c ha hb hc
  · omega

/-- The Sub filter on row `r`: frame and reconstructed values. -/
theorem applySubFilter_spec (b0 : List Nat) (cur rowSize bpp : Nat) (hbpp : 1 ≤ bpp)
    (hlen : cur + rowSize ≤ b0.length) :
    (applySubFilter b0 cur rowSize bpp).length = b0.length ∧
    (∀ j, j < cur + bpp ∨ cur + rowSize ≤ j →
      (applySubFilter b0 cur rowSize bpp).getD j 0 = b0.getD j 0) ∧
    (∀ i, bpp ≤ i → i < rowSize →
      (applySubFilter b0 cur rowSize bpp).getD (cur + i) 0 =
        (b0.getD (cur + i) 0 + (applySubFilter b0 cur rowSize bpp).getD (cur + (i - bpp)) 0)
          % 256) := by
  by_cases hrs : rowSize ≤ bpp
  · have h0 : rowSize - bpp = 0 := by omega
    unfold applySubFilter
    rw [h0]
    refine ⟨rfl, fun _ _ => rfl, fun i h1 h2 => ?_⟩
    omega
  · have key := forLoop_set_spec cur
      (fun i b => (b.getD (cur + i) 0 + b.getD (cur + (i - bpp)) 0) % 256)
      (by
        intro i b1 b2 h
        simp only []
        rw [h (cur + i) (by omega), h (cur + (i - bpp)) (by omega)])
      (rowSize - bpp) bpp b0 (by omega)
    obtain ⟨k1, k2, k3⟩ := key
    unfold applySubFilter
    refine ⟨k1, ?_, ?_⟩
    · intro j hj
      exact k2 j (by omega)
    · intro i hi1 hi2
      rw [k3 i hi1 (by omega)]
      simp only []
      rw [getD_set_self _ _ _ (by rw [k1]; omega), getD_set_of_ne _ _ _ _ (by omega)]

/-- Without 32-bit overflow the offsets `applyFilters` computes for row `r`
are the plain products. -/
theorem row_offsets (r rowSize : Nat) (h32 : (r + 1) * (rowSize + 1) < 4294967296) :
    u32 (rowSize + 1) = rowSize + 1 ∧
    u32 (r * (rowSize + 1)) = r * (rowSize + 1) ∧
    u32 (r - 1) = r - 1 ∧
    u32 ((r - 1) * (rowSize + 1)) = (r - 1) * (rowSize + 1) ∧
    (r - 1) * (rowSize + 1) ≤ r * (rowSize + 1) ∧
    (r ≠ 0 → (r - 1) * (rowSize + 1) + (rowSize + 1) = r * (rowSize + 1)) := by
  have e1 : (r + 1) * (rowSize + 1) = r * (rowSize + 1) + (rowSize + 1) := Nat.succ_mul _ _
  have e2 : (r - 1) * (rowSize + 1) ≤ r * (rowSize + 1) :=
    Nat.mul_le_mul_right _ (Nat.sub_le _ _)
  have e3 : r ≤ r * (rowSize + 1) := Nat.le_mul_of_pos_right _ (Nat.succ_pos _)
  refine ⟨u32_of_lt (by omega), u32_of_lt (by omega), u32_of_lt (by omega),
    u32_of_lt (by omega), e2, ?_⟩
  intro hr
  obtain ⟨k, rfl⟩ : ∃ k, r = k + 1 := ⟨r - 1, by omega⟩
  simp [Nat.succ_mul]

/-- The Up filter on row `r`. -/
theorem applyUpFilter_spec (b0 : List Nat) (r rowSize : Nat)
    (hlen : (r + 1) * (rowSize + 1) ≤ b0.length)
    (h32 : (r + 1) * (rowSize + 1) < 4294967296) :
    (applyUpFilter b0 r rowSize).length = b0.length ∧
    (∀ j, j < r * (rowSize + 1) + 1 ∨ (r + 1) * (rowSize + 1) ≤ j →
      (applyUpFilter b0 r rowSize).getD j 0 = b0.getD j 0) ∧
    (∀ i, i < rowSize →
      (applyUpFilter b0 r rowSize).getD (r * (rowSize + 1) + 1 + i) 0 =
        if r = 0 then b0.getD (r * (rowSize + 1) + 1 + i) 0
        else (b0.getD (r * (rowSize + 1) + 1 + i) 0 +
          (applyUpFilter b0 r rowSize).getD ((r - 1) * (rowSize + 1) + 1 + i) 0) % 256) := by
  obtain ⟨o1, o2, o3, o4, o5, o6⟩ := row_offsets r rowSize h32
  have e1 : (r + 1) * (rowSize + 1) = r * (rowSize + 1) + (rowSize + 1) := Nat.succ_mul _ _
  unfold applyUpFilter
  by_cases hr : r = 0
  · simp [hr]
  · simp only [hr, if_false, o1, o2, o3, o4]
    have o7 := o6 hr
    have key := forLoop_set_spec (r * (rowSize + 1) + 1)
      (fun i b => (b.getD (r * (rowSize + 1) + 1 + i) 0 +
        b.getD ((r - 1) * (rowSize + 1) + 1 + i) 0) % 256)
      (by
        intro i b1 b2 h
        simp only []
        rw [h _ (by omega), h ((r - 1) * (rowSize + 1) + 1 + i) (by omega)])
      rowSize 0 b0 (by omega)
    obtain ⟨k1, k2, k3⟩ := key
    refine ⟨k1, ?_, ?_⟩
    · intro j hj
      exact k2 j (by omega)
    · intro i hi
      rw [k3 i (by omega) (by omega)]
      simp only []
      rw [getD_set_self _ _ _ (by rw [k1]; omega), getD_set_of_ne _ _ _ _ (by omega)]

/-- The Average filter on row `r`. -/
theorem applyAverageFilter_spec (b0 : List Nat) (r rowSize bpp : Nat) (hbpp : 1 ≤ bpp)
    (hlen : (r + 1) * (rowSize + 1) ≤ b0.length)
    (h32 : (r + 1) * (rowSize + 1) < 4294967296) :
    (applyAverageFilter b0 r rowSize bpp).length = b0.length ∧
    (∀ j, j < r * (rowSize + 1) + 1 ∨ (r + 1) * (rowSize + 1) ≤ j →
      (applyAverageFilter b0 r rowSize bpp).getD j 0 = b0.getD j 0) ∧
    (∀ i, i < rowSize →
      (applyAverageFilter b0 r rowSize bpp).getD (r * (rowSize + 1) + 1 + i) 0 =
        (b0.getD (r * (rowSize + 1) + 1 + i) 0 +
          (Spec.left (applyAverageFilter b0 r rowSize bpp) (rowSize + 1) bpp r i +
            Spec.up (applyAverageFilter b0 r rowSize bpp) (rowSize + 1) r i) / 2) % 256) := by
  obtain ⟨o1, o2, o3, o4, o5, o6⟩ := row_offsets r rowSize h32
  have e1 : (r + 1) * (rowSize + 1) = r * (rowSize + 1) + (rowSize + 1) := Nat.succ_mul _ _
  unfold applyAverageFilter Spec.left Spec.up
  simp only [o1, o2, o3, o4]
  have key := forLoop_set_spec (r * (rowSize + 1) + 1)
    (fun i buf => (buf.getD (r * (rowSize + 1) + 1 + i) 0 +
      ((if i < bpp then 0 else buf.getD (r * (rowSize + 1) + 1 + (i - bpp)) 0) +
        (if r = 0 then 0 else buf.getD ((r - 1) * (rowSize + 1) + 1 + i) 0)) / 2) % 256)
    (by
      intro i b1 b2 h
      simp only []
      rw [h (r * (rowSize + 1) + 1 + i) (by omega),
        h (r * (rowSize + 1) + 1 + (i - bpp)) (by omega),
        h ((r - 1) * (rowSize + 1) + 1 + i) (by omega)])
    rowSize 0 b0 (by omega)
  obtain ⟨k1, k2, k3⟩ := key
  refine ⟨k1, ?_, ?_⟩
  · intro j hj
    exact k2 j (by omega)
  · intro i hi
    rw [k3 i (by omega) (by omega)]
    simp only []
    rw [getD_set_self _ _ _ (by rw [k1]; omega)]
    by_cases h1 : i < bpp <;> by_cases hr : r = 0
    · simp [h1, hr]
    · have o7 := o6 hr
      simp only [h1, hr, if_true, if_false]
      rw [getD_set_of_ne _ _ _ _ (by omega)]
    · simp only [h1, hr, if_true, if_false]
      rw [getD_set_of_ne _ _ _ _ (by omega)]
    · have o7 := o6 hr
      simp only [h1, hr, if_false]
      rw [getD_set_of_ne _ _ _ _ (by omega), getD_set_of_ne _ _ _ _ (by omega)]

/-- The Paeth filter on row `r`. -/
theorem applyPaethFilter_spec (b0 : List Nat) (r rowSize bpp : Nat) (hbpp : 1 ≤ bpp)
    (hlen : (r + 1) * (rowSize + 1) ≤ b0.length)
    (h32 : (r + 1) * (rowSize + 1) < 4294967296) :
    (applyPaethFilter b0 r rowSize bpp).length = b0.length ∧
    (∀ j, j < r * (rowSize + 1) + 1 ∨ (r + 1) * (rowSize + 1) ≤ j →
      (applyPaethFilter b0 r rowSize bpp).getD j 0 = b0.getD j 0) ∧
    (∀ i, i < rowSize →
      (applyPaethFilter b0 r rowSize bpp).getD (r * (rowSize + 1) + 1 + i) 0 =
        (b0.getD (r * (rowSize + 1) + 1 + i) 0 +
          paethPredictor
            (Spec.left (applyPaethFilter b0 r rowSize bpp) (rowSize + 1) bpp r i : Nat)
            (Spec.up (applyPaethFilter b0 r rowSize bpp) (rowSize + 1) r i : Nat)
            (Spec.upLeft (applyPaethFilter b0 r rowSize bpp) (rowSize + 1) bpp r i : Nat))
          % 256) := by
  obtain ⟨o1, o2, o3, o4, o5, o6⟩ := row_offsets r rowSize h32
  have e1 : (r + 1) * (rowSize + 1) = r * (rowSize + 1) + (rowSize + 1) := Nat.succ_mul _ _
  unfold applyPaethFilter Spec.left Spec.up Spec.upLeft
  simp only [o1, o2, o3, o4]
  have key := forLoop_set_spec (r * (rowSize + 1) + 1)
    (fun i buf => (buf.getD (r * (rowSize + 1) + 1 + i) 0 +
      paethPredictor
        ((if i < bpp then 0 else buf.getD (r * (rowSize + 1) + 1 + (i - bpp)) 0 : Nat) : Int)
        ((if r = 0 then 0 else buf.getD ((r - 1) * (rowSize + 1) + 1 + i) 0 : Nat) : Int)
        ((if i < bpp ∨ r = 0 then 0
          else buf.getD ((r - 1) * (rowSize + 1) + 1 + (i - bpp)) 0 : Nat) : Int)) % 256)
    (by
      intro i b1 b2 h
      simp only []
      rw [h (r * (rowSize + 1) + 1 + i) (by omega),
        h (r * (rowSize + 1) + 1 + (i - bpp)) (by omega),
        h ((r - 1) * (rowSize + 1) + 1 + i) (by omega),
        h ((r - 1) * (rowSize + 1) + 1 + (i - bpp)) (by omega)])
    rowSize 0 b0 (by omega)
  obtain ⟨k1, k2, k3⟩ := key
  refine ⟨k1, ?_, ?_⟩
  · intro j hj
    exact k2 j (by omega)
  · intro i hi
    rw [k3 i (by omega) (by omega)]
    simp only []
    rw [getD_set_self _ _ _ (by rw [k1]; omega)]
    by_cases h1 : i < bpp <;> by_cases hr : r = 0
    · simp [h1, hr]
    · have o7 := o6 hr
      simp only [h1, hr, if_true, if_false, true_or]
      rw [getD_set_of_ne _ _ _ _ (by omega)]
    · simp only [h1, hr, if_true, if_false, or_true]
      rw [getD_set_of_ne _ _ _ _ (by omega)]
    · have o7 := o6 hr
      simp only [h1, hr, if_false, or_self]
      rw [getD_set_of_ne _ _ _ _ (by omega), getD_set_of_ne _ _ _ _ (by omega),
        getD_set_of_ne _ _ _ _ (by omega)]

theorem spec_left_lt (out : List Nat) (stride bpp r i : Nat) (h : ∀ j, out.getD j 0 < 256) :
    Spec.left out stride bpp r i < 256 := by
  unfold Spec.left
  split
  · omega
  · exact h _

theorem spec_up_lt (out : List Nat) (stride r i : Nat) (h : ∀ j, out.getD j 0 < 256) :
    Spec.up out stride r i < 256 := by
  unfold Spec.up
  split
  · omega
  · exact h _

theorem spec_upLeft_lt (out : List Nat) (stride bpp r i : Nat) (h : ∀ j, out.getD j 0 < 256) :
    Spec.upLeft out stride bpp r i < 256 := by
  unfold Spec.upLeft
  split
  · omega
  · exact h _

/-- A buffer that has bytes in and about row `r` wherever it was changed has
bytes everywhere. -/
theorem bytes_of_row (b0 out : List Nat) (r rowSize : Nat)
    (hb : ∀ j, b0.getD j 0 < 256)
    (hframe : ∀ j, j < r * (rowSize + 1) + 1 ∨ (r + 1) * (rowSize + 1) ≤ j →
      out.getD j 0 = b0.getD j 0)
    (hrow : ∀ i, i < rowSize → out.getD (r * (rowSize + 1) + 1 + i) 0 < 256) :
    ∀ j, out.getD j 0 < 256 := by
  intro j
  have e1 : (r + 1) * (rowSize + 1) = r * (rowSize + 1) + (rowSize + 1) := Nat.succ_mul _ _
  by_cases hj : j < r * (rowSize + 1) + 1 ∨ (r + 1) * (rowSize + 1) ≤ j
  · rw [hframe j hj]; exact hb j
  · have := hrow (j - (r * (rowSize + 1) + 1)) (by omega)
    have e2 : r * (rowSize + 1) + 1 + (j - (r * (rowSize + 1) + 1)) = j := by omega
    rwa [e2] at this

/-- The switch of `applyFilters` takes its default branch exactly on a tag
above 4. -/
theorem applyFiltersRow_none (b0 : List Nat) (r rowSize bpp : Nat)
    (h32 : (r + 1) * (rowSize + 1) < 4294967296) :
    applyFiltersRow b0 r rowSize bpp = none ↔ 4 < b0.getD (r * (rowSize + 1)) 0 := by
  obtain ⟨o1, o2, -⟩ := row_offsets r rowSize h32
  unfold applyFiltersRow
  simp only [o1, o2]
  split <;> simp_all
  omega

/-- One pass of the row loop on a row whose tag is at most 4: the length is
kept, nothing outside the data bytes of row `r` changes (nothing at all under
tag 0), and on a buffer of bytes row `r` comes out reconstructed. -/
theorem applyFiltersRow_some (b0 : List Nat) (r rowSize bpp : Nat) (hbpp : 1 ≤ bpp)
    (hlen : (r + 1) * (rowSize + 1) ≤ b0.length)
    (h32 : (r + 1) * (rowSize + 1) < 4294967296)
    (ht : b0.getD (r * (rowSize + 1)) 0 ≤ 4) :
    ∃ out, applyFiltersRow b0 r rowSize bpp = some out ∧ out.length = b0.length ∧
      (∀ j, j < r * (rowSize + 1) + 1 ∨ (r + 1) * (rowSize + 1) ≤ j ∨
          b0.getD (r * (rowSize + 1)) 0 = 0 → out.getD j 0 = b0.getD j 0) ∧
      ((∀ j, b0.getD j 0 < 256) →
        Spec.Reconstructed b0 out rowSize bpp r ∧ ∀ j, out.getD j 0 < 256) := by
  obtain ⟨o1, o2, o3, o4, o5, o6⟩ := row_offsets r rowSize h32
  have e1 : (r + 1) * (rowSize + 1) = r * (rowSize + 1) + (rowSize + 1) := Nat.succ_mul _ _
  unfold applyFiltersRow
  simp only [o1, o2]
  split
  next h0 =>
    refine ⟨b0, rfl, rfl, fun _ _ => rfl, fun hb => ⟨?_, hb⟩⟩
    intro i _
    rw [h0]
    simp only [Spec.predictor, Nat.add_zero]
    exact (Nat.mod_eq_of_lt (hb _)).symm
  next h1 =>
    obtain ⟨k1, k2, k3⟩ := applySubFilter_spec b0 (r * (rowSize + 1) + 1) rowSize bpp hbpp
      (by omega)
    refine ⟨_, rfl, k1, fun j hj => k2 j (by omega), fun hb => ?_⟩
    have hrec : Spec.Reconstructed b0
        (applySubFilter b0 (r * (rowSize + 1) + 1) rowSize bpp) rowSize bpp r := by
      intro i hi
      rw [h1]
      simp only [Spec.predictor, Spec.left]
      by_cases hi2 : i < bpp
      · rw [k2 _ (by omega)]
        simp only [hi2, if_true, Nat.add_zero]
        exact (Nat.mod_eq_of_lt (hb _)).symm
      · simp only [hi2, if_false]
        exact k3 i (by omega) hi
    refine ⟨hrec, bytes_of_row b0 _ r rowSize hb (fun j hj => k2 j (by omega)) ?_⟩
    intro i hi
    rw [hrec i hi]
    exact Nat.mod_lt _ (by omega)
  next h2 =>
    obtain ⟨k1, k2, k3⟩ := applyUpFilter_spec b0 r rowSize hlen h32
    refine ⟨_, rfl, k1, fun j hj => k2 j (by omega), fun hb => ?_⟩
    have hrec : Spec.Reconstructed b0 (applyUpFilter b0 r rowSize) rowSize bpp r := by
      intro i hi
      rw [h2, k3 i hi]
      simp only [Spec.predictor, Spec.up]
      by_cases hr : r = 0
      · simp only [hr, if_true, Nat.add_zero]
        exact (Nat.mod_eq_of_lt (hb _)).symm
      · simp only [hr, if_false]
    refine ⟨hrec, bytes_of_row b0 _ r rowSize hb k2 ?_⟩
    intro i hi
    rw [hrec i hi]
    exact Nat.mod_lt _ (by omega)
  next h3 =>
    obtain ⟨k1, k2, k3⟩ := applyAverageFilter_spec b0 r rowSize bpp hbpp hlen h32
    refine ⟨_, rfl, k1, fun j hj => k2 j (by omega), fun hb => ?_⟩
    have hrec : Spec.Reconstructed b0 (applyAverageFilter b0 r rowSize bpp) rowSize bpp r := by
      intro i hi
      rw [h3, k3 i hi]
      simp only [Spec.predictor]
    refine ⟨hrec, bytes_of_row b0 _ r rowSize hb k2 ?_⟩
    intro i hi
    rw [hrec i hi]
    exact Nat.mod_lt _ (by omega)
  next h4 =>
    obtain ⟨k1, k2, k3⟩ := applyPaethFilter_spec b0 r rowSize bpp hbpp hlen h32
    refine ⟨_, rfl, k1, fun j hj => k2 j (by omega), fun hb => ?_⟩
    have hout : ∀ j, (applyPaethFilter b0 r rowSize bpp).getD j 0 < 256 := by
      refine bytes_of_row b0 _ r rowSize hb k2 ?_
      intro i hi
      rw [k3 i hi]
      exact Nat.mod_lt _ (by omega)
    refine ⟨?_, hout⟩
    intro i hi
    rw [h4, k3 i hi]
    simp only [Spec.predictor]
    rw [paethPredictor_eq_spec _ _ _ (spec_left_lt _ _ _ _ _ hout) (spec_up_lt _ _ _ _ hout)
      (spec_upLeft_lt _ _ _ _ _ hout)]
  next hne =>
    exfalso
    have h5 : ∀ t : Nat, t ≤ 4 → t = 0 ∨ t = 1 ∨ t = 2 ∨ t = 3 ∨ t = 4 := by
      intro t h; omega
    rcases h5 _ ht with h | h | h | h | h
    all_goals simp_all

theorem reconstructed_congr_out (raw out1 out2 : List Nat) (rowSize bpp r : Nat)
    (h : ∀ j, j < (r + 1) * (rowSize + 1) → out2.getD j 0 = out1.getD j 0)
    (hrec : Spec.Reconstructed raw out1 rowSize bpp r) :
    Spec.Reconstructed raw out2 rowSize bpp r := by
  have e1 : (r + 1) * (rowSize + 1) = r * (rowSize + 1) + (rowSize + 1) := Nat.succ_mul _ _
  have e2 : (r - 1) * (rowSize + 1) ≤ r * (rowSize + 1) :=
    Nat.mul_le_mul_right _ (Nat.sub_le _ _)
  intro i hi
  have := hrec i hi
  unfold Spec.left Spec.up Spec.upLeft at *
  rw [h _ (by omega), h (r * (rowSize + 1) + 1 + (i - bpp)) (by omega),
    h ((r - 1) * (rowSize + 1) + 1 + i) (by omega),
    h ((r - 1) * (rowSize + 1) + 1 + (i - bpp)) (by omega)]
  exact this

theorem reconstructed_congr_raw (raw1 raw2 out : List Nat) (rowSize bpp r : Nat)
    (h : ∀ j, r * (rowSize + 1) ≤ j → raw2.getD j 0 = raw1.getD j 0)
    (hrec : Spec.Reconstructed raw1 out rowSize bpp r) :
    Spec.Reconstructed raw2 out rowSize bpp r := by
  intro i hi
  rw [h _ (by omega), h _ (by omega)]
  exact hrec i hi

/-- The row loop of `applyFilters` from row `r` on, for `n` rows: length,
frame, return code and reconstructed values. -/
theorem applyFiltersLoop_spec (rowSize bpp : Nat) (hbpp : 1 ≤ bpp) :
    ∀ (n r : Nat) (buf : List Nat), (r + n) * (rowSize + 1) ≤ buf.length →
      (r + n) * (rowSize + 1) < 4294967296 →
      (applyFiltersLoop rowSize bpp n r buf).2.length = buf.length ∧
      (∀ j, (∀ k, r ≤ k → k < r + n → 1 ≤ buf.getD (k * (rowSize + 1)) 0 →
            buf.getD (k * (rowSize + 1)) 0 ≤ 4 →
            ¬ (k * (rowSize + 1) < j ∧ j < (k + 1) * (rowSize + 1))) →
          (applyFiltersLoop rowSize bpp n r buf).2.getD j 0 = buf.getD j 0) ∧
      (((applyFiltersLoop rowSize bpp n r buf).1 = SUCCESS ∧
          ∀ k, r ≤ k → k < r + n → buf.getD (k * (rowSize + 1)) 0 ≤ 4) ∨
        ((applyFiltersLoop rowSize bpp n r buf).1 = ERROR_DATA_INVALID ∧
          ∃ k, r ≤ k ∧ k < r + n ∧ 4 < buf.getD (k * (rowSize + 1)) 0)) ∧
      ((∀ j, buf.getD j 0 < 256) →
        (∀ j, (applyFiltersLoop rowSize bpp n r buf).2.getD j 0 < 256) ∧
        ∀ k, r ≤ k → k < r + n →
          (∀ k', r ≤ k' → k' ≤ k → buf.getD (k' * (rowSize + 1)) 0 ≤ 4) →
          Spec.Reconstructed buf (applyFiltersLoop rowSize bpp n r buf).2 rowSize bpp k) := by
  intro n
  induction n with
  | zero =>
    intro r buf _ _
    refine ⟨rfl, fun _ _ => rfl, Or.inl ⟨rfl, fun k h1 h2 => by omega⟩, fun hb => ⟨hb, ?_⟩⟩
    intro k h1 h2
    omega
  | succ n ih =>
    intro r buf hlen h32
    have hmono : ∀ k, r + 1 ≤ k → (r + 1) * (rowSize + 1) ≤ k * (rowSize + 1) :=
      fun k hk => Nat.mul_le_mul_right _ hk
    have e1 : (r + 1) * (rowSize + 1) = r * (rowSize + 1) + (rowSize + 1) := Nat.succ_mul _ _
    have hr1 : (r + 1) * (rowSize + 1) ≤ (r + (n + 1)) * (rowSize + 1) :=
      Nat.mul_le_mul_right _ (by omega)
    have hrn : r + 1 + n = r + (n + 1) := by omega
    by_cases ht : buf.getD (r * (rowSize + 1)) 0 ≤ 4
    · obtain ⟨out1, hrow, hl1, hf1, hv1⟩ :=
        applyFiltersRow_some buf r rowSize bpp hbpp (by omega) (by omega) ht
      obtain ⟨i1, i2, i3, i4⟩ := ih (r + 1) out1 (by rw [hl1, hrn]; exact hlen)
        (by rw [hrn]; exact h32)
      have htag : ∀ k, r + 1 ≤ k → out1.getD (k * (rowSize + 1)) 0 =
          buf.getD (k * (rowSize + 1)) 0 := by
        intro k hk
        exact hf1 _ (Or.inr (Or.inl (hmono k hk)))
      rw [show applyFiltersLoop rowSize bpp (n + 1) r buf =
        applyFiltersLoop rowSize bpp n (r + 1) out1 from by simp only [applyFiltersLoop, hrow]]
      refine ⟨by rw [i1, hl1], ?_, ?_, ?_⟩
      · intro j hj
        rw [i2 j ?_]
        · by_cases hjr : j < r * (rowSize + 1) + 1 ∨ (r + 1) * (rowSize + 1) ≤ j ∨
              buf.getD (r * (rowSize + 1)) 0 = 0
          · exact hf1 j hjr
          · exfalso
            exact hj r (by omega) (by omega) (by omega) ht ⟨by omega, by omega⟩
        · intro k hk1 hk2 hk3 hk4
          rw [htag k hk1] at hk3 hk4
          exact hj k (by omega) (by omega) hk3 hk4
      · rcases i3 with ⟨hs, hall⟩ | ⟨he, k, hk1, hk2, hk3⟩
        · refine Or.inl ⟨hs, ?_⟩
          intro k hk1 hk2
          by_cases hkr : k = r
          · subst hkr; exact ht
          · rw [← htag k (by omega)]
            exact hall k (by omega) (by omega)
        · refine Or.inr ⟨he, k, by omega, by omega, ?_⟩
          rw [← htag k hk1]
          exact hk3
      · intro hb
        obtain ⟨hrec1, hb1⟩ := hv1 hb
        obtain ⟨hb2, hrec2⟩ := i4 hb1
        refine ⟨hb2, ?_⟩
        intro k hk1 hk2 hk3
        by_cases hkr : k = r
        · subst hkr
          refine reconstructed_congr_out buf out1 _ rowSize bpp k ?_ hrec1
          intro j hj
          apply i2
          intro k' hk1' _ _ _
          have := hmono k' hk1'
          omega
        · have hk' : r + 1 ≤ k := by omega
          refine reconstructed_congr_raw out1 buf _ rowSize bpp k ?_ ?_
          · intro j hj
            have := hmono k hk'
            exact (hf1 j (Or.inr (Or.inl (by omega)))).symm
          · apply hrec2 k hk' (by omega)
            intro k' hk1' hk2'
            rw [htag k' hk1']
            exact hk3 k' (by omega) hk2'
    · have hnone := (applyFiltersRow_none buf r rowSize bpp (by omega)).mpr (by omega)
      rw [show applyFiltersLoop rowSize bpp (n + 1) r buf = (ERROR_DATA_INVALID, buf) from by
        simp only [applyFiltersLoop, hnone]]
      refine ⟨rfl, fun _ _ => rfl, Or.inr ⟨rfl, r, by omega, by omega, by omega⟩,
        fun hb => ⟨hb, ?_⟩⟩
      intro k hk1 hk2 hk3
      exact absurd (hk3 r (by omega) hk1) ht

theorem bytesPerPixel_pos (colorType : Nat) : 1 ≤ bytesPerPixel colorType := by
  unfold bytesPerPixel
  split <;> omega

theorem getD_lt_of_bytes (l : List Nat) (h : ∀ x ∈ l, x < 256) (j : Nat) : l.getD j 0 < 256 := by
  by_cases hj : j < l.length
  · have : l.getD j 0 = l[j] := by simp [List.getD_eq_getElem?_getD, hj]
    rw [this]
    exact h _ (List.getElem_mem hj)
  · have : l.getD j 0 = 0 := by
      rw [List.getD_eq_getElem?_getD, List.getElem?_eq_none (Nat.le_of_not_lt hj)]
      rfl
    omega

/-- The facts about `applyFilters` on an image whose raster size
`height * (1 + width * bpp)` fits 32 bits and lies inside the buffer: length,
frame, return code, reconstructed values. -/
theorem applyFilters_spec (buf : List Nat) (width height colorType : Nat)
    (h32 : height * (1 + width * bytesPerPixel colorType) < 4294967296)
    (hlen : height * (1 + width * bytesPerPixel colorType) ≤ buf.length) :
    (applyFilters buf width height colorType).2.length = buf.length ∧
    (∀ j, (∀ k, k < height →
          1 ≤ buf.getD (k * (1 + width * bytesPerPixel colorType)) 0 →
          buf.getD (k * (1 + width * bytesPerPixel colorType)) 0 ≤ 4 →
          ¬ (k * (1 + width * bytesPerPixel colorType) < j ∧
            j < (k + 1) * (1 + width * bytesPerPixel colorType))) →
        (applyFilters buf width height colorType).2.getD j 0 = buf.getD j 0) ∧
    (((applyFilters buf width height colorType).1 = SUCCESS ∧
        ∀ k, k < height → buf.getD (k * (1 + width * bytesPerPixel colorType)) 0 ≤ 4) ∨
      ((applyFilters buf width height colorType).1 = ERROR_DATA_INVALID ∧
        ∃ k, k < height ∧ 4 < buf.getD (k * (1 + width * bytesPerPixel colorType)) 0)) ∧
    ((∀ j, buf.getD j 0 < 256) →
      (∀ j, (applyFilters buf width height colorType).2.getD j 0 < 256) ∧
      ∀ k, k < height →
        (∀ k', k' ≤ k → buf.getD (k' * (1 + width * bytesPerPixel colorType)) 0 ≤ 4) →
        Spec.Reconstructed buf (applyFilters buf width height colorType).2
          (width * bytesPerPixel colorType) (bytesPerPixel colorType) k) := by
  have hcomm : 1 + width * bytesPerPixel colorType = width * bytesPerPixel colorType + 1 :=
    Nat.add_comm _ _
  rw [hcomm] at h32 hlen
  simp only [hcomm]
  by_cases hh : height = 0
  · subst hh
    unfold applyFilters
    refine ⟨rfl, fun _ _ => rfl, Or.inl ⟨rfl, fun k hk => by omega⟩, fun hb => ⟨hb, ?_⟩⟩
    intro k hk
    omega
  · have h1 : width * bytesPerPixel colorType + 1 ≤
        height * (width * bytesPerPixel colorType + 1) :=
      Nat.le_mul_of_pos_left _ (by omega)
    have hrs : u32 (width * bytesPerPixel colorType) = width * bytesPerPixel colorType :=
      u32_of_lt (by omega)
    unfold applyFilters
    simp only [hrs]
    obtain ⟨k1, k2, k3, k4⟩ := applyFiltersLoop_spec (width * bytesPerPixel colorType)
      (bytesPerPixel colorType) (bytesPerPixel_pos colorType) height 0 buf
      (by rw [Nat.zero_add]; exact hlen) (by rw [Nat.zero_add]; exact h32)
    simp only [Nat.zero_add, Nat.zero_le, true_implies, true_and] at k2 k3 k4
    exact ⟨k1, k2, k3, k4⟩

/-! ## Scanline reconstruction: the claims -/

/-- C2: on a buffer of bytes that holds `height` rows of stride
`1 + width * bpp` (no 32-bit overflow) whose tags are all in 0..4, after
`applyFilters` byte `i` of row `r` is `(raw + pred) mod 256`, where `pred` is
the predictor of spec §4.4 for the row's filter type (the Average sum is not
reduced to 8 bits) and the neighbours `a`, `b`, `c` are the reconstructed
bytes of the current and the previous row, 0 outside the image. -/
theorem applyFilters_matches_reference (buf : List Nat) (width height colorType : Nat)
    (h32 : height * (1 + width * bytesPerPixel colorType) < 4294967296)
    (hlen : height * (1 + width * bytesPerPixel colorType) ≤ buf.length)
    (hbytes : ∀ x ∈ buf, x < 256)
    (htags : ∀ r, r < height →
      buf.getD (r * (1 + width * bytesPerPixel colorType)) 0 ≤ 4) :
    ∀ r i, r < height → i < width * bytesPerPixel colorType →
      (applyFilters buf width height colorType).2.getD
          (r * (1 + width * bytesPerPixel colorType) + 1 + i) 0 =
        (buf.getD (r * (1 + width * bytesPerPixel colorType) + 1 + i) 0 +
          Spec.predictor (buf.getD (r * (1 + width * bytesPerPixel colorType)) 0)
            (Spec.left (applyFilters buf width height colorType).2
              (1 + width * bytesPerPixel colorType) (bytesPerPixel colorType) r i)
            (Spec.up (applyFilters buf width height colorType).2
              (1 + width * bytesPerPixel colorType) r i)
            (Spec.upLeft (applyFilters buf width height colorType).2
              (1 + width * bytesPerPixel colorType) (bytesPerPixel colorType) r i)) % 256 := by
  intro r i hr hi
  obtain ⟨-, -, -, k4⟩ := applyFilters_spec buf width height colorType h32 hlen
  have hrec := (k4 (getD_lt_of_bytes buf hbytes)).2 r hr (fun k' hk' => htags k' (by omega))
  have hcomm : 1 + width * bytesPerPixel colorType = width * bytesPerPixel colorType + 1 :=
    Nat.add_comm _ _
  rw [hcomm]
  exact hrec i hi

/-- C2, at an Average row with `a = b = 255`: the predictor is 255, not the
127 an 8-bit sum would give. -/
theorem applyFilters_matches_reference_witness :
    2 * (1 + 2 * bytesPerPixel 0) < 4294967296 ∧
    2 * (1 + 2 * bytesPerPixel 0) ≤ sampleAverage.length ∧
    (∀ x ∈ sampleAverage, x < 256) ∧
    (∀ r, r < 2 → sampleAverage.getD (r * (1 + 2 * bytesPerPixel 0)) 0 ≤ 4) ∧
    (applyFilters sampleAverage 2 2 0).2 = [0, 255, 255, 3, 255, 0] ∧
    ∀ r i, r < 2 → i < 2 * bytesPerPixel 0 →
      (applyFilters sampleAverage 2 2 0).2.getD (r * (1 + 2 * bytesPerPixel 0) + 1 + i) 0 =
        (sampleAverage.getD (r * (1 + 2 * bytesPerPixel 0) + 1 + i) 0 +
          Spec.predictor (sampleAverage.getD (r * (1 + 2 * bytesPerPixel 0)) 0)
            (Spec.left (applyFilters sampleAverage 2 2 0).2
              (1 + 2 * bytesPerPixel 0) (bytesPerPixel 0) r i)
            (Spec.up (applyFilters sampleAverage 2 2 0).2 (1 + 2 * bytesPerPixel 0) r i)
            (Spec.upLeft (applyFilters sampleAverage 2 2 0).2
              (1 + 2 * bytesPerPixel 0) (bytesPerPixel 0) r i)) % 256 :=
  ⟨by decide, by decide, by decide, by decide, by decide,
    applyFilters_matches_reference sampleAverage 2 2 0 (by decide) (by decide) (by decide)
      (by decide)⟩

/-- C3: for bytes `a`, `b`, `c`, with `p = a+b-c`, `pa = |p-a|`, `pb = |p-b|`,
`pc = |p-c|`, `paethPredictor` returns `a` if `pa ≤ pb` and `pa ≤ pc`, else
`b` if `pb ≤ pc`, else `c`; it returns `a` when `a = b = c` and whenever
`pa = pb < pc`. -/
theorem paethPredictor_matches_definition (a b c : Nat)
    (ha : a < 256) (hb : b < 256) (hc : c < 256) :
    paethPredictor (a : Int) (b : Int) (c : Int) =
      (if ((a : Int) + b - c - a).natAbs ≤ ((a : Int) + b - c - b).natAbs ∧
          ((a : Int) + b - c - a).natAbs ≤ ((a : Int) + b - c - c).natAbs then a
        else if ((a : Int) + b - c - b).natAbs ≤ ((a : Int) + b - c - c).natAbs then b
        else c) ∧
    paethPredictor (a : Int) (b : Int) (c : Int) = Spec.PaethPredictor a b c ∧
    (a = b → b = c → paethPredictor (a : Int) (b : Int) (c : Int) = a) ∧
    (((a : Int) + b - c - a).natAbs = ((a : Int) + b - c - b).natAbs →
      ((a : Int) + b - c - b).natAbs < ((a : Int) + b - c - c).natAbs →
      paethPredictor (a : Int) (b : Int) (c : Int) = a) := by
  refine ⟨?_, paethPredictor_eq_spec a b c ha hb hc, ?_, ?_⟩
  · unfold paethPredictor
    simp only []
    split_ifs <;> omega
  · intro h1 h2
    unfold paethPredictor
    simp only []
    split_ifs <;> omega
  · intro h1 h2
    unfold paethPredictor
    simp only []
    split_ifs <;> omega

/-- C3 at `a = b = 7`, `c = 0`, where `pa = pb = 7 < pc = 14`. -/
theorem paethPredictor_matches_definition_witness :
    (7 : Nat) < 256 ∧ (0 : Nat) < 256 ∧ paethPredictor 7 7 0 = 7 ∧
    (paethPredictor ((7 : Nat) : Int) ((7 : Nat) : Int) ((0 : Nat) : Int) =
      Spec.PaethPredictor 7 7 0) :=
  ⟨by decide, by decide, by decide,
    (paethPredictor_matches_definition 7 7 0 (by decide) (by decide) (by decide)).2.1⟩

/-- Undoing the encoder's subtraction: `((x - p) mod 256 + p) mod 256 = x`
for a byte `x`. -/
theorem unfilter_byte (x p : Nat) (hx : x < 256) :
    ((((x : Int) - (p : Int)) % 256).toNat + p) % 256 = x := by
  omega

/-- C1: round trip, for `bpp = 3` at colour type 2 and `bpp = 1` at colour
type 0 or 3.  If the buffer holds for each row `r` the tag `t r` in 0..4
followed by the bytes of the raster `R` filtered as the encoder does with
pixels of `bpp` bytes (`Spec.filtered`), then `applyFilters` returns
`SUCCESS` and the bytes after each tag are the bytes of `R`. -/
theorem applyFilters_round_trip (buf : List Nat) (width height colorType bpp : Nat)
    (R : Nat → Nat → Nat) (t : Nat → Nat)
    (hct : (colorType = 2 ∧ bpp = 3) ∨ ((colorType = 0 ∨ colorType = 3) ∧ bpp = 1))
    (h32 : height * (1 + width * bpp) < 4294967296)
    (hlen : height * (1 + width * bpp) ≤ buf.length)
    (hbytes : ∀ x ∈ buf, x < 256)
    (hR : ∀ r, r < height → ∀ i, i < width * bpp → R r i < 256)
    (ht : ∀ r, r < height → t r ≤ 4)
    (hbuf : ∀ r, r < height →
      buf.getD (r * (1 + width * bpp)) 0 = t r ∧
      ∀ i, i < width * bpp →
        buf.getD (r * (1 + width * bpp) + 1 + i) 0 = Spec.filtered (t r) bpp R r i) :
    (applyFilters buf width height colorType).1 = SUCCESS ∧
    ∀ r, r < height → ∀ i, i < width * bpp →
      (applyFilters buf width height colorType).2.getD (r * (1 + width * bpp) + 1 + i) 0 =
        R r i := by
  have hb : bytesPerPixel colorType = bpp := by
    rcases hct with ⟨h1, h2⟩ | ⟨h1 | h1, h2⟩ <;> subst h1 <;> subst h2 <;> rfl
  subst hb
  obtain ⟨-, -, k3, k4⟩ := applyFilters_spec buf width height colorType h32 hlen
  have htags : ∀ r, r < height →
      buf.getD (r * (1 + width * bytesPerPixel colorType)) 0 ≤ 4 := by
    intro r hr
    rw [(hbuf r hr).1]
    exact ht r hr
  have hbpp := bytesPerPixel_pos colorType
  constructor
  · rcases k3 with ⟨hs, -⟩ | ⟨-, k, hk, hbad⟩
    · exact hs
    · have := htags k hk
      omega
  · have hrec := (k4 (getD_lt_of_bytes buf hbytes)).2
    have hcomm : 1 + width * bytesPerPixel colorType = width * bytesPerPixel colorType + 1 :=
      Nat.add_comm _ _
    simp only [hcomm] at hbuf htags hrec
    simp only [hcomm]
    intro r
    induction r using Nat.strong_induction_on with
    | _ r ihr =>
      intro hr i
      induction i using Nat.strong_induction_on with
      | _ i ihi =>
        intro hi
        have hrow := hrec r hr (fun k' hk' => htags k' (by omega)) i hi
        rw [hrow, (hbuf r hr).1, (hbuf r hr).2 i hi]
        have hl : Spec.left (applyFilters buf width height colorType).2
            (width * bytesPerPixel colorType + 1) (bytesPerPixel colorType) r i =
            if i < bytesPerPixel colorType then 0 else R r (i - bytesPerPixel colorType) := by
          unfold Spec.left
          split
          · rfl
          · exact ihi (i - bytesPerPixel colorType) (by omega) (by omega)
        have hu : Spec.up (applyFilters buf width height colorType).2
            (width * bytesPerPixel colorType + 1) r i =
            if r = 0 then 0 else R (r - 1) i := by
          unfold Spec.up
          split
          · rfl
          · exact ihr (r - 1) (by omega) (by omega) i hi
        have hul : Spec.upLeft (applyFilters buf width height colorType).2
            (width * bytesPerPixel colorType + 1) (bytesPerPixel colorType) r i =
            if i < bytesPerPixel colorType ∨ r = 0 then 0
            else R (r - 1) (i - bytesPerPixel colorType) := by
          unfold Spec.upLeft
          split
          · rfl
          · exact ihr (r - 1) (by omega) (by omega) (i - bytesPerPixel colorType) (by omega)
        rw [hl, hu, hul]
        unfold Spec.filtered
        exact unfilter_byte _ _ (hR r hr i hi)

/-- C1 on the truecolor 2x4 sample (colour type 2, three bytes per pixel):
rows filtered with Sub, Average, Paeth and Up come back as the raster; and
on the grayscale 2x4 sample (colour type 0, one byte per pixel). -/
theorem applyFilters_round_trip_witness :
    (((2 : Nat) = 2 ∧ (3 : Nat) = 3) ∨ (((2 : Nat) = 0 ∨ (2 : Nat) = 3) ∧ (3 : Nat) = 1)) ∧
    4 * (1 + 2 * 3) < 4294967296 ∧
    4 * (1 + 2 * 3) ≤ sampleRgbFiltered.length ∧
    (∀ x ∈ sampleRgbFiltered, x < 256) ∧
    (∀ r, r < 4 → ∀ i, i < 2 * 3 → sampleRgbRaster r i < 256) ∧
    (∀ r, r < 4 → sampleRgbTags r ≤ 4) ∧
    (∀ r, r < 4 →
      sampleRgbFiltered.getD (r * (1 + 2 * 3)) 0 = sampleRgbTags r ∧
      ∀ i, i < 2 * 3 →
        sampleRgbFiltered.getD (r * (1 + 2 * 3) + 1 + i) 0 =
          Spec.filtered (sampleRgbTags r) 3 sampleRgbRaster r i) ∧
    ((applyFilters sampleRgbFiltered 2 4 2).1 = SUCCESS ∧
      ∀ r, r < 4 → ∀ i, i < 2 * 3 →
        (applyFilters sampleRgbFiltered 2 4 2).2.getD (r * (1 + 2 * 3) + 1 + i) 0 =
          sampleRgbRaster r i) ∧
    (applyFilters sampleRgbFiltered 2 4 2).2 =
      [1, 10, 20, 30, 40, 60, 90, 3, 200, 100, 50, 250, 0, 7, 4, 3, 99, 180, 77, 254, 1,
        2, 128, 64, 32, 16, 8, 4] ∧
    ((applyFilters sampleFiltered 2 4 0).1 = SUCCESS ∧
      ∀ r, r < 4 → ∀ i, i < 2 * 1 →
        (applyFilters sampleFiltered 2 4 0).2.getD (r * (1 + 2 * 1) + 1 + i) 0 =
          sampleRaster r i) :=
  ⟨by decide, by decide, by decide, by decide, by decide, by decide, by decide,
    applyFilters_round_trip sampleRgbFiltered 2 4 2 3 sampleRgbRaster sampleRgbTags (by decide)
      (by decide) (by decide) (by decide) (by decide) (by decide) (by decide),
    by decide,
    applyFilters_round_trip sampleFiltered 2 4 0 1 sampleRaster sampleTags (by decide)
      (by decide) (by decide) (by decide) (by decide) (by decide) (by decide)⟩

/-- C4: `applyFilters` returns `ERROR_DATA_INVALID` if and only if some row
`r < height` has a tag above 4, and `SUCCESS` otherwise. -/
theorem applyFilters_fails_iff_bad_tag (buf : List Nat) (width height colorType : Nat)
    (h32 : height * (1 + width * bytesPerPixel colorType) < 4294967296)
    (hlen : height * (1 + width * bytesPerPixel colorType) ≤ buf.length) :
    ((applyFilters buf width height colorType).1 = ERROR_DATA_INVALID ↔
      ∃ r, r < height ∧ 4 < buf.getD (r * (1 + width * bytesPerPixel colorType)) 0) ∧
    ((¬ ∃ r, r < height ∧ 4 < buf.getD (r * (1 + width * bytesPerPixel colorType)) 0) →
      (applyFilters buf width height colorType).1 = SUCCESS) := by
  obtain ⟨-, -, k3, -⟩ := applyFilters_spec buf width height colorType h32 hlen
  rcases k3 with ⟨hs, hall⟩ | ⟨he, hex⟩
  · refine ⟨⟨fun h => ?_, fun ⟨r, hr, hbad⟩ => ?_⟩, fun _ => hs⟩
    · rw [hs] at h
      exact absurd h (by decide)
    · have := hall r hr
      omega
  · exact ⟨⟨fun _ => hex, fun _ => he⟩, fun h => absurd hex h⟩

/-- C4 on a buffer whose second row has the tag 7, and on one with good
tags. -/
theorem applyFilters_fails_iff_bad_tag_witness :
    3 * (1 + 1 * bytesPerPixel 0) < 4294967296 ∧
    3 * (1 + 1 * bytesPerPixel 0) ≤ sampleBadTag.length ∧
    (applyFilters sampleBadTag 1 3 0).1 = ERROR_DATA_INVALID ∧
    (applyFilters sampleFiltered 2 4 0).1 = SUCCESS ∧
    ((applyFilters sampleBadTag 1 3 0).1 = ERROR_DATA_INVALID ↔
      ∃ r, r < 3 ∧ 4 < sampleBadTag.getD (r * (1 + 1 * bytesPerPixel 0)) 0) :=
  ⟨by decide, by decide, by decide, by decide,
    (applyFilters_fails_iff_bad_tag sampleBadTag 1 3 0 (by decide) (by decide)).1⟩

/-! ## Emission -/

/-- C5, the code at the 2x2 grayscale image `[[0,255],[128,64]]`: whatever
the 14 bytes `rest` are that follow the raster in the block of
`2 * 2 * 5` bytes, `writePNM` writes six bytes behind the header, the bytes
at the odd offsets 1, 3, .. 11 of the block: `00 00 40` and three bytes from
behind the raster, where the four samples `00 FF 80 40` are due. -/
theorem writePNM_gray_2x2 (rest : List Nat) :
    writePNM (sampleGray ++ rest) 20 2 2 0 sampleNoPlte 5 =
      (SUCCESS, pnmHeader 5 2 2 ++ [0, 0, 64, rest.getD 1 0, rest.getD 3 0, rest.getD 5 0]) ∧
    pnmHeader 5 2 2 = textBytes "P5\n2 2\n255\n" ∧
    (writePNM (sampleGray ++ rest) 20 2 2 0 sampleNoPlte 5).2 ≠
      pnmHeader 5 2 2 ++ [0, 255, 128, 64] := by
  have h : writePNM (sampleGray ++ rest) 20 2 2 0 sampleNoPlte 5 =
      (SUCCESS, pnmHeader 5 2 2 ++ [0, 0, 64, rest.getD 1 0, rest.getD 3 0, rest.getD 5 0]) := by
    simp [writePNM, forLoop, u32, sampleGray]
  refine ⟨h, by decide, ?_⟩
  rw [h]
  simp

/-- C6, the code at a 2x2 palette image with the indices `[[0,1],[1,0]]` and
the gray palette `[(10,10,10),(200,200,200)]` (format 5): `writePNM` runs
over the `2 * 2 * 5` bytes of the block, skips the even offsets and writes
three palette bytes for each of the ten others, so thirty bytes follow the
`P5` header, beginning with entry 0 three times, where the four bytes
`0A C8 C8 0A` are due. -/
theorem writePNM_palette_2x2 (rest : List Nat) :
    writePNM (sampleIndexed ++ rest) 20 2 2 3 samplePalette 5 =
      (SUCCESS, pnmHeader 5 2 2 ++ [10, 10, 10, 10, 10, 10, 10, 10, 10] ++
        (([10, 10, 10, 200, 200, 200].drop (rest.getD 1 0 * 3)).take 3 ++
        ([10, 10, 10, 200, 200, 200].drop (rest.getD 3 0 * 3)).take 3 ++
        ([10, 10, 10, 200, 200, 200].drop (rest.getD 5 0 * 3)).take 3 ++
        ([10, 10, 10, 200, 200, 200].drop (rest.getD 7 0 * 3)).take 3 ++
        ([10, 10, 10, 200, 200, 200].drop (rest.getD 9 0 * 3)).take 3 ++
        ([10, 10, 10, 200, 200, 200].drop (rest.getD 11 0 * 3)).take 3 ++
        ([10, 10, 10, 200, 200, 200].drop (rest.getD 13 0 * 3)).take 3)) ∧
    (writePNM (sampleIndexed ++ rest) 20 2 2 3 samplePalette 5).2 ≠
      pnmHeader 5 2 2 ++ [10, 200, 200, 10] ∧
    (writePNM (sampleIndexed ++ List.replicate 14 0) 20 2 2 3 samplePalette 5).2 =
      textBytes "P5\n2 2\n255\n" ++ List.replicate 30 10 := by
  have h : writePNM (sampleIndexed ++ rest) 20 2 2 3 samplePalette 5 =
      (SUCCESS, pnmHeader 5 2 2 ++ [10, 10, 10, 10, 10, 10, 10, 10, 10] ++
        (([10, 10, 10, 200, 200, 200].drop (rest.getD 1 0 * 3)).take 3 ++
        ([10, 10, 10, 200, 200, 200].drop (rest.getD 3 0 * 3)).take 3 ++
        ([10, 10, 10, 200, 200, 200].drop (rest.getD 5 0 * 3)).take 3 ++
        ([10, 10, 10, 200, 200, 200].drop (rest.getD 7 0 * 3)).take 3 ++
        ([10, 10, 10, 200, 200, 200].drop (rest.getD 9 0 * 3)).take 3 ++
        ([10, 10, 10, 200, 200, 200].drop (rest.getD 11 0 * 3)).take 3 ++
        ([10, 10, 10, 200, 200, 200].drop (rest.getD 13 0 * 3)).take 3)) := by
    simp [writePNM, forLoop, sampleIndexed, samplePalette]
  refine ⟨h, ?_, by decide⟩
  rw [h]
  simp

/-- A loop that appends `f i` to what is written so far writes the pieces
`f lo`, `f (lo + 1)`, ... in order. -/
theorem forLoop_append (f : Nat → List Nat) :
    ∀ (n lo : Nat) (out : List Nat),
      forLoop (fun i out => out ++ f i) n lo out =
        out ++ ((List.range' lo n).map f).flatten := by
  intro n
  induction n with
  | zero => intro lo out; simp [forLoop]
  | succ n ih =>
    intro lo out
    simp only [forLoop]
    rw [ih, List.range'_succ, List.map_cons, List.flatten_cons, List.append_assoc]

theorem length_flatten_rows (f : Nat → List Nat) (c : Nat) :
    ∀ n, (∀ i, i < n → (f i).length = c) → (((List.range n).map f).flatten).length = n * c := by
  intro n
  induction n with
  | zero => intro _; simp
  | succ n ih =>
    intro h
    rw [List.range_succ, List.map_append, List.flatten_append, List.length_append,
      ih (fun i hi => h i (by omega))]
    simp only [List.map_cons, List.map_nil, List.flatten_cons, List.flatten_nil,
      List.append_nil]
    rw [h n (by omega), Nat.succ_mul]

/-- C7: for a colour type 2 image whose raster size `h * (1 + 3 * w)` fits 32
bits, `writePNM` writes the header `P6`, `w h`, `255` and then, for
`r = 0 .. h-1` in turn, the `3 * w` bytes of the buffer from offset
`r * (1 + 3 * w) + 1` on; on a buffer that holds the raster these are
`3 * w * h` bytes. -/
theorem writePNM_truecolor (buf : List Nat) (size w h : Nat) (plte : chunk) (format : Nat)
    (h32 : h * (1 + 3 * w) < 4294967296) :
    writePNM buf size w h 2 plte format =
      (SUCCESS, pnmHeader 6 w h ++
        ((List.range h).map (fun r => (buf.drop (r * (1 + 3 * w) + 1)).take (3 * w))).flatten) ∧
    pnmHeader 6 w h =
      textBytes "P6\n" ++ (textBytes (toString w) ++ textBytes " " ++ textBytes (toString h) ++
        textBytes "\n") ++ textBytes "255\n" ∧
    (h * (1 + 3 * w) ≤ buf.length →
      (((List.range h).map
        (fun r => (buf.drop (r * (1 + 3 * w) + 1)).take (3 * w))).flatten).length = 3 * w * h) := by
  refine ⟨?_, ?_, ?_⟩
  · unfold writePNM
    simp only []
    rw [forLoop_append, ← List.range_eq_range']
    congr 3
    apply List.map_congr_left
    intro r hr
    have hr2 : r < h := List.mem_range.mp hr
    have h1 : 1 + 3 * w ≤ h * (1 + 3 * w) := Nat.le_mul_of_pos_left _ (by omega)
    have h2 : r * (1 + 3 * w) ≤ h * (1 + 3 * w) := Nat.mul_le_mul_right _ (by omega)
    have e1 : w * 3 = 3 * w := Nat.mul_comm _ _
    have e2 : 3 * w + 1 = 1 + 3 * w := Nat.add_comm _ _
    rw [e1, u32_of_lt (show 3 * w < 4294967296 by omega), e2,
      u32_of_lt (show 1 + 3 * w < 4294967296 by omega),
      u32_of_lt (show r * (1 + 3 * w) < 4294967296 by omega)]
  · have h6 : toString (6 : Nat) = "6" := by decide
    unfold pnmHeader
    rw [h6]
    simp [textBytes, String.toList]
  · intro hlen
    rw [length_flatten_rows _ (3 * w) h, Nat.mul_comm]
    intro r hr
    have h2 : (r + 1) * (1 + 3 * w) ≤ h * (1 + 3 * w) := Nat.mul_le_mul_right _ (by omega)
    have e3 : (r + 1) * (1 + 3 * w) = r * (1 + 3 * w) + (1 + 3 * w) := Nat.succ_mul _ _
    rw [List.length_take, List.length_drop]
    omega

/-- C7 on a 1x2 image with the pixels `(1,2,3)` and `(4,5,6)`. -/
theorem writePNM_truecolor_witness :
    2 * (1 + 3 * 1) < 4294967296 ∧
    writePNM sampleTruecolor 10 1 2 2 sampleNoPlte 6 =
      (SUCCESS, textBytes "P6\n1 2\n255\n" ++ [1, 2, 3, 4, 5, 6]) ∧
    writePNM sampleTruecolor 10 1 2 2 sampleNoPlte 6 =
      (SUCCESS, pnmHeader 6 1 2 ++
        ((List.range 2).map
          (fun r => (sampleTruecolor.drop (r * (1 + 3 * 1) + 1)).take (3 * 1))).flatten) :=
  ⟨by decide, by decide,
    (writePNM_truecolor sampleTruecolor 10 1 2 sampleNoPlte 6 (by decide)).1⟩

/-! ## The chunk stream -/

theorem or_eq_add_of_lt (a b i : Nat) (h : b < 2 ^ i) : a * 2 ^ i ||| b = a * 2 ^ i + b := by
  rw [Nat.mul_comm]
  exact (Nat.mul_add_lt_is_or h a).symm

/-- The function `bigEndianToUint32` on four bytes is their base-256 value. -/
theorem bigEndianToUint32_bytes (a b c d : Nat) (ha : a < 256) (hb : b < 256) (hc : c < 256)
    (hd : d < 256) :
    bigEndianToUint32 [a, b, c, d] 0 = a * 16777216 + b * 65536 + c * 256 + d := by
  unfold bigEndianToUint32
  simp only [List.getD_cons_zero, List.getD_cons_succ, Nat.zero_add]
  rw [u32_of_lt (show a * 16777216 < 4294967296 by omega),
    u32_of_lt (show b * 65536 < 4294967296 by omega),
    u32_of_lt (show c * 256 < 4294967296 by omega)]
  have h1 : c * 256 ||| d = c * 256 + d := or_eq_add_of_lt c d 8 (by omega)
  have h2 : b * 65536 ||| (c * 256 + d) = b * 65536 + (c * 256 + d) :=
    or_eq_add_of_lt b _ 16 (by omega)
  have h3 : a * 16777216 ||| (b * 65536 + (c * 256 + d)) =
      a * 16777216 + (b * 65536 + (c * 256 + d)) :=
    or_eq_add_of_lt a _ 24 (by omega)
  rw [Nat.or_assoc, Nat.or_assoc, h1, h2, h3]
  omega

/-- Decoding the four length bytes of a chunk gives the length back. -/
theorem bigEndianToUint32_be32 (n : Nat) (h : n < 4294967296) :
    bigEndianToUint32 (Spec.be32 n) 0 = n := by
  unfold Spec.be32
  rw [bigEndianToUint32_bytes _ _ _ _ (Nat.mod_lt _ (by omega)) (Nat.mod_lt _ (by omega))
    (Nat.mod_lt _ (by omega)) (Nat.mod_lt _ (by omega))]
  omega

/-- A read of exactly the bytes `X` that lie at the position. -/
theorem fread_at (content : List Nat) (eof : Bool) (A X B : List Nat)
    (hc : content = A ++ X ++ B) :
    fread ⟨content, A.length, eof⟩ X.length = (X, ⟨content, A.length + X.length, eof⟩) := by
  subst hc
  unfold fread
  simp

/-- The test of a four-byte tag against four characters. -/
theorem tag_test (t : List Nat) (h : t.length = 4) (a b c d : Nat) :
    (t.getD 0 0 = a ∧ t.getD 1 0 = b ∧ t.getD 2 0 = c ∧ t.getD 3 0 = d) ↔ t = [a, b, c, d] := by
  match t, h with
  | [x, y, z, w], _ => simp

/-- The function `readChunk` at a chunk header: it yields the length and the tag and
moves eight bytes on. -/
theorem readChunk_at (content : List Nat) (eof : Bool) (A type B : List Nat) (n : Nat)
    (hn : n < 4294967296) (ht : type.length = 4)
    (hc : content = A ++ (Spec.be32 n ++ type ++ B)) :
    readChunk ⟨content, A.length, eof⟩ = (SUCCESS, n, type, ⟨content, A.length + 8, eof⟩) := by
  have hl : (Spec.be32 n).length = 4 := rfl
  have h1 := fread_at content eof A (Spec.be32 n) (type ++ B)
    (by rw [hc]; simp [List.append_assoc])
  have h2 := fread_at content eof (A ++ Spec.be32 n) type B
    (by rw [hc]; simp [List.append_assoc])
  rw [hl] at h1
  rw [ht, List.length_append, hl] at h2
  unfold readChunk
  rw [h1]
  simp only [hl, ne_eq, not_true_eq_false, if_false]
  rw [h2]
  simp only [ht, ne_eq, not_true_eq_false, if_false, bigEndianToUint32_be32 n hn]

/-- One pass of the chunk loop over a well-formed chunk that is not `IEND`,
is acceptable for the colour type and gets its block: the loop goes round
again with the state `Spec.absorb` describes. -/
theorem readAndProcessChunksBody_absorb (libc : Libc) (colorType : Nat) (s : Assembly)
    (c : Spec.Chunk) (A B : List Nat)
    (hfile : s.file = ⟨A ++ c.encode ++ B, A.length, false⟩)
    (hwf : c.WellFormed) (hend : c.type ≠ Spec.IEND)
    (hidat : c.type = Spec.IDAT →
      libc.realloc s.buffer.isSome (u32 (s.bufferSize + c.payload.length)) = true)
    (hplte : c.type = Spec.PLTE → colorType = 3 ∧ libc.malloc c.payload.length = true) :
    readAndProcessChunksBody libc colorType s = Sum.inr (Spec.absorb s c) := by
  obtain ⟨ht, hcrc, hpl⟩ := hwf
  have hrc := readChunk_at (A ++ c.encode ++ B) false A c.type (c.payload ++ c.crc ++ B)
    c.payload.length (by omega) ht (by simp [Spec.Chunk.encode, List.append_assoc])
  have hrd := fread_at (A ++ c.encode ++ B) false (A ++ Spec.be32 c.payload.length ++ c.type)
    c.payload (c.crc ++ B) (by simp [Spec.Chunk.encode, List.append_assoc])
  have hl : (Spec.be32 c.payload.length).length = 4 := rfl
  simp only [List.length_append, hl, ht] at hrd
  have e8 : A.length + 4 + 4 = A.length + 8 := by omega
  rw [e8] at hrd
  have henc : c.encode.length = 8 + c.payload.length + 4 := by
    simp [Spec.Chunk.encode, hl, ht, hcrc]
    omega
  unfold readAndProcessChunksBody
  rw [hfile, hrc]
  simp only [ne_eq, not_true_eq_false, if_false, tag_test c.type ht]
  have e1 : c.type = [73, 69, 78, 68] ↔ c.type = Spec.IEND := Iff.rfl
  have e2 : c.type = [73, 68, 65, 84] ↔ c.type = Spec.IDAT := Iff.rfl
  have e3 : c.type = [80, 76, 84, 69] ↔ c.type = Spec.PLTE := Iff.rfl
  rw [if_neg (e1.not.mpr hend)]
  unfold Spec.absorb
  by_cases hI : c.type = Spec.IDAT
  · rw [if_pos (e2.mpr hI), hrd]
    simp [hidat hI, hI, fseek, henc, hfile]
    omega
  · rw [if_neg (e2.not.mpr hI)]
    by_cases hP : c.type = Spec.PLTE
    · rw [if_pos (e3.mpr hP), hrd]
      obtain ⟨h3, hm⟩ := hplte hP
      have hPI : Spec.PLTE ≠ Spec.IDAT := by decide
      simp [h3, hm, hP, hPI, fseek, henc, hfile]
      omega
    · rw [if_neg (e3.not.mpr hP)]
      simp [hI, hP, fseek, henc, hfile, u32_of_lt (show c.payload.length + 4 < 4294967296 by omega)]
      omega

/-- One pass of the chunk loop at a chunk header with the tag `IEND`:
`ERROR_DATA_INVALID` while `*buffer` is `NULL`, `SUCCESS` otherwise; only the
stream has moved. -/
theorem readAndProcessChunksBody_iend (libc : Libc) (colorType : Nat) (s : Assembly)
    (A B : List Nat) (n : Nat) (hn : n < 4294967296)
    (hfile : s.file = ⟨A ++ (Spec.be32 n ++ Spec.IEND ++ B), A.length, false⟩) :
    readAndProcessChunksBody libc colorType s =
      Sum.inl (if s.buffer = none then ERROR_DATA_INVALID else SUCCESS,
        { s with file := ⟨A ++ (Spec.be32 n ++ Spec.IEND ++ B), A.length + 8, false⟩ }) := by
  have hrc := readChunk_at (A ++ (Spec.be32 n ++ Spec.IEND ++ B)) false A Spec.IEND B n hn rfl rfl
  unfold readAndProcessChunksBody
  rw [hfile, hrc]
  by_cases hb : s.buffer = none
  · simp [Spec.IEND, hb]
  · simp [Spec.IEND, hb, readAndProcessChunksEnd]

/-- One pass of the chunk loop at a chunk header with the tag `PLTE` when the
colour type is not 3: `ERROR_DATA_INVALID`, and only the stream has moved. -/
theorem readAndProcessChunksBody_plte_rejected (libc : Libc) (colorType : Nat) (s : Assembly)
    (A B : List Nat) (n : Nat) (hn : n < 4294967296) (hct : colorType ≠ 3)
    (hfile : s.file = ⟨A ++ (Spec.be32 n ++ Spec.PLTE ++ B), A.length, false⟩) :
    readAndProcessChunksBody libc colorType s =
      Sum.inl (ERROR_DATA_INVALID,
        { s with file := ⟨A ++ (Spec.be32 n ++ Spec.PLTE ++ B), A.length + 8, false⟩ }) := by
  have hrc := readChunk_at (A ++ (Spec.be32 n ++ Spec.PLTE ++ B)) false A Spec.PLTE B n hn rfl rfl
  unfold readAndProcessChunksBody
  rw [hfile, hrc]
  simp [Spec.PLTE, hct]

theorem encodeChunks_cons (c : Spec.Chunk) (cs : List Spec.Chunk) :
    Spec.encodeChunks (c :: cs) = c.encode ++ Spec.encodeChunks cs := by
  simp [Spec.encodeChunks]

theorem length_le_encodeChunks (cs : List Spec.Chunk) :
    cs.length ≤ (Spec.encodeChunks cs).length := by
  induction cs with
  | nil => simp
  | cons c cs ih =>
    rw [encodeChunks_cons, List.length_append, List.length_cons]
    have : 4 ≤ c.encode.length := by
      simp [Spec.Chunk.encode, Spec.be32]
    omega

theorem absorb_file (s : Assembly) (c : Spec.Chunk) :
    (Spec.absorb s c).file = ⟨s.file.content, s.file.pos + c.encode.length, false⟩ := by
  unfold Spec.absorb
  split_ifs <;> rfl

theorem absorb_buffer_isSome (s : Assembly) (c : Spec.Chunk) :
    (Spec.absorb s c).buffer.isSome = (if c.type = Spec.IDAT then true else s.buffer.isSome) := by
  unfold Spec.absorb
  split_ifs <;> rfl

theorem absorb_bufferSize (s : Assembly) (c : Spec.Chunk) :
    (Spec.absorb s c).bufferSize =
      (if c.type = Spec.IDAT then u32 (s.bufferSize + c.payload.length) else s.bufferSize) := by
  unfold Spec.absorb
  split_ifs <;> rfl

theorem absorb_plte (s : Assembly) (c : Spec.Chunk) (h : c.type ≠ Spec.PLTE) :
    (Spec.absorb s c).plte = s.plte := by
  unfold Spec.absorb
  split_ifs <;> rfl

/-- The chunk loop over a sequence of well-formed chunks without `IEND`, each
acceptable for the colour type and granted its block: after as many passes
the loop stands behind the sequence with the state the chunks leave. -/
theorem readAndProcessChunksLoop_chunks (libc : Libc) (colorType : Nat) :
    ∀ (pre : List Spec.Chunk) (s : Assembly) (A B : List Nat) (fuel : Nat),
      s.file = ⟨A ++ Spec.encodeChunks pre ++ B, A.length, false⟩ →
      (∀ c ∈ pre, c.WellFormed ∧ c.type ≠ Spec.IEND ∧ (c.type = Spec.PLTE → colorType = 3)) →
      Spec.blocksGranted libc pre s.buffer.isSome s.bufferSize = true →
      readAndProcessChunksLoop libc colorType (pre.length + fuel) s =
        readAndProcessChunksLoop libc colorType fuel (pre.foldl Spec.absorb s) ∧
      (pre.foldl Spec.absorb s).file =
        ⟨A ++ Spec.encodeChunks pre ++ B, A.length + (Spec.encodeChunks pre).length, false⟩ := by
  intro pre
  induction pre with
  | nil =>
    intro s A B fuel hfile _ _
    simp [Spec.encodeChunks, hfile]
  | cons c cs ih =>
    intro s A B fuel hfile hpre hgr
    obtain ⟨hwf, hend, hpl⟩ := hpre c (List.mem_cons_self _ _)
    have hfile1 : s.file = ⟨A ++ c.encode ++ (Spec.encodeChunks cs ++ B), A.length, false⟩ := by
      rw [hfile, encodeChunks_cons]
      simp [List.append_assoc]
    unfold Spec.blocksGranted at hgr
    have hbody := readAndProcessChunksBody_absorb libc colorType s c A
      (Spec.encodeChunks cs ++ B) hfile1 hwf hend
      (by
        intro hI
        rw [if_pos hI, Bool.and_eq_true] at hgr
        exact hgr.1)
      (by
        intro hP
        have hPI : c.type ≠ Spec.IDAT := by rw [hP]; decide
        rw [if_neg hPI, if_pos hP, Bool.and_eq_true] at hgr
        exact ⟨hpl hP, hgr.1⟩)
    have hgr1 : Spec.blocksGranted libc cs (Spec.absorb s c).buffer.isSome
        (Spec.absorb s c).bufferSize = true := by
      rw [absorb_buffer_isSome, absorb_bufferSize]
      by_cases hI : c.type = Spec.IDAT
      · rw [if_pos hI, Bool.and_eq_true] at hgr
        rw [if_pos hI, if_pos hI]
        exact hgr.2
      · rw [if_neg hI] at hgr
        rw [if_neg hI, if_neg hI]
        by_cases hP : c.type = Spec.PLTE
        · rw [if_pos hP, Bool.and_eq_true] at hgr
          exact hgr.2
        · rw [if_neg hP] at hgr
          exact hgr
    have hfile2 : (Spec.absorb s c).file =
        ⟨(A ++ c.encode) ++ Spec.encodeChunks cs ++ B, (A ++ c.encode).length, false⟩ := by
      rw [absorb_file, hfile1]
      simp [List.append_assoc]
    obtain ⟨i1, i2⟩ := ih (Spec.absorb s c) (A ++ c.encode) B fuel hfile2
      (fun c' hc' => hpre c' (List.mem_cons_of_mem _ hc')) hgr1
    have hfuel : (c :: cs).length + fuel = (cs.length + fuel) + 1 := by
      simp only [List.length_cons]; omega
    constructor
    · rw [hfuel]
      simp only [readAndProcessChunksLoop, feof, hfile, hbody, List.foldl_cons]
      simpa using i1
    · rw [List.foldl_cons, i2, encodeChunks_cons]
      simp [List.append_assoc, Nat.add_assoc]

theorem foldl_absorb_plte (pre : List Spec.Chunk) :
    ∀ s : Assembly, (∀ c ∈ pre, c.type ≠ Spec.PLTE) → (pre.foldl Spec.absorb s).plte = s.plte := by
  induction pre with
  | nil => intro s _; rfl
  | cons c cs ih =>
    intro s h
    rw [List.foldl_cons, ih _ (fun c' hc' => h c' (List.mem_cons_of_mem _ hc')),
      absorb_plte s c (h c (List.mem_cons_self _ _))]

theorem foldl_absorb_buffer_none (pre : List Spec.Chunk) :
    ∀ s : Assembly, (pre.foldl Spec.absorb s).buffer = none ↔
      (s.buffer = none ∧ ∀ c ∈ pre, c.type ≠ Spec.IDAT) := by
  induction pre with
  | nil => intro s; simp
  | cons c cs ih =>
    intro s
    rw [List.foldl_cons, ih]
    by_cases hI : c.type = Spec.IDAT
    · simp [Spec.absorb, hI]
    · have hb : (Spec.absorb s c).buffer = s.buffer := by
        unfold Spec.absorb
        rw [if_neg hI]
        split_ifs <;> rfl
      rw [hb]
      simp [hI]

/-- C9: when the colour type is 0 or 2 and the stream holds, behind
well-formed chunks that are neither `IEND` nor `PLTE` and got their blocks, a
chunk header with the tag `PLTE`, `readAndProcessChunks` returns
`ERROR_DATA_INVALID` right behind that header, and `*plte` is as it was
before the call. -/
theorem readAndProcessChunks_plte_rejected (libc : Libc) (colorType : Nat) (s0 : Assembly)
    (pre : List Spec.Chunk) (A B : List Nat) (n : Nat)
    (hct : colorType = 0 ∨ colorType = 2)
    (hn : n < 4294967296)
    (hfile : s0.file =
      ⟨A ++ Spec.encodeChunks pre ++ (Spec.be32 n ++ Spec.PLTE ++ B), A.length, false⟩)
    (hpre : ∀ c ∈ pre, c.WellFormed ∧ c.type ≠ Spec.IEND ∧ c.type ≠ Spec.PLTE)
    (hgr : Spec.blocksGranted libc pre s0.buffer.isSome s0.bufferSize = true) :
    ∃ s1, readAndProcessChunks libc s0 colorType = some (ERROR_DATA_INVALID, s1) ∧
      s1.plte = s0.plte ∧ s1.file.pos = A.length + (Spec.encodeChunks pre).length + 8 := by
  have hct3 : colorType ≠ 3 := by omega
  obtain ⟨h1b, h2⟩ := readAndProcessChunksLoop_chunks libc colorType pre s0 A
    (Spec.be32 n ++ Spec.PLTE ++ B) ((s0.file.content.length - pre.length) + 1) hfile
    (fun c hc => ⟨(hpre c hc).1, (hpre c hc).2.1, fun h => absurd h (hpre c hc).2.2⟩) hgr
  have hfuel : s0.file.content.length + 1 =
      pre.length + ((s0.file.content.length - pre.length) + 1) := by
    have := length_le_encodeChunks pre
    rw [hfile]
    simp only [List.length_append]
    omega
  have h2b : (pre.foldl Spec.absorb s0).file =
      ⟨(A ++ Spec.encodeChunks pre) ++ (Spec.be32 n ++ Spec.PLTE ++ B),
        (A ++ Spec.encodeChunks pre).length, false⟩ := by
    rw [h2, List.length_append]
  have hbody := readAndProcessChunksBody_plte_rejected libc colorType (pre.foldl Spec.absorb s0)
    (A ++ Spec.encodeChunks pre) B n hn hct3 h2b
  refine ⟨{ (pre.foldl Spec.absorb s0) with
      file := ⟨A ++ Spec.encodeChunks pre ++ (Spec.be32 n ++ Spec.PLTE ++ B),
        (A ++ Spec.encodeChunks pre).length + 8, false⟩ }, ?_, ?_, ?_⟩
  · unfold readAndProcessChunks
    rw [hfuel, h1b]
    simp only [readAndProcessChunksLoop, feof, h2, hbody]
    rfl
  · exact foldl_absorb_plte pre s0 (fun c hc => (hpre c hc).2.2)
  · simp [List.length_append]

/-- C9 on a colour type 0 stream `gAMA`, `IDAT`, `PLTE`, `IEND`. -/
theorem readAndProcessChunks_plte_rejected_witness :
    ((0 : Nat) = 0 ∨ (0 : Nat) = 2) ∧
    (sampleStart (Spec.encodeChunks [sampleGama, sampleIdat, samplePlteChunk, sampleIend])).file =
      ⟨[] ++ Spec.encodeChunks [sampleGama, sampleIdat] ++
        (Spec.be32 3 ++ Spec.PLTE ++ ([10, 20, 30] ++ [0, 0, 0, 0] ++ sampleIend.encode)),
        ([] : List Nat).length, false⟩ ∧
    (∀ c ∈ [sampleGama, sampleIdat], c.WellFormed ∧ c.type ≠ Spec.IEND ∧ c.type ≠ Spec.PLTE) ∧
    (readAndProcessChunks sampleLibc
      (sampleStart (Spec.encodeChunks [sampleGama, sampleIdat, samplePlteChunk, sampleIend]))
      0).map Prod.fst = some ERROR_DATA_INVALID ∧
    ∃ s1, readAndProcessChunks sampleLibc
        (sampleStart (Spec.encodeChunks [sampleGama, sampleIdat, samplePlteChunk, sampleIend]))
        0 = some (ERROR_DATA_INVALID, s1) ∧
      s1.plte = sampleNoPlte ∧
      s1.file.pos = ([] : List Nat).length +
        (Spec.encodeChunks [sampleGama, sampleIdat]).length + 8 :=
  ⟨by decide, by decide, by decide, by decide,
    readAndProcessChunks_plte_rejected sampleLibc 0
      (sampleStart (Spec.encodeChunks [sampleGama, sampleIdat, samplePlteChunk, sampleIend]))
      [sampleGama, sampleIdat] [] ([10, 20, 30] ++ [0, 0, 0, 0] ++ sampleIend.encode) 3
      (by decide) (by decide) (by decide) (by decide) (by decide)⟩

/-- C10 as stated fails: on the stream of one `IDAT` chunk of length 0
followed by `IEND`, with a C library that returns a block for the request of
size 0, `IEND` is reached while the concatenation of the `IDAT` payloads is
empty, and `readAndProcessChunks` returns `SUCCESS`. -/
theorem readAndProcessChunks_empty_idat_accepted :
    ([sampleEmptyIdat].map Spec.Chunk.payload).flatten = [] ∧
    (readAndProcessChunks sampleLibc
      (sampleStart (Spec.encodeChunks [sampleEmptyIdat, sampleIend])) 0).map Prod.fst =
      some SUCCESS ∧
    (readAndProcessChunks sampleLibc
      (sampleStart (Spec.encodeChunks [sampleEmptyIdat, sampleIend])) 0).map Prod.fst ≠
      some ERROR_DATA_INVALID := by
  decide

/-- C10, amended: called with `*buffer == NULL` on a stream that holds, behind
well-formed chunks that are not `IEND`, are acceptable for the colour type
and got their blocks, a chunk header with the tag `IEND`,
`readAndProcessChunks` returns `ERROR_DATA_INVALID` if none of the chunks is
an `IDAT` chunk and `SUCCESS` if one of them is, whatever its length. -/
theorem readAndProcessChunks_iend (libc : Libc) (colorType : Nat) (s0 : Assembly)
    (pre : List Spec.Chunk) (A B : List Nat) (n : Nat)
    (hn : n < 4294967296)
    (hfile : s0.file =
      ⟨A ++ Spec.encodeChunks pre ++ (Spec.be32 n ++ Spec.IEND ++ B), A.length, false⟩)
    (hbuf : s0.buffer = none)
    (hpre : ∀ c ∈ pre, c.WellFormed ∧ c.type ≠ Spec.IEND ∧ (c.type = Spec.PLTE → colorType = 3))
    (hgr : Spec.blocksGranted libc pre s0.buffer.isSome s0.bufferSize = true) :
    ((∀ c ∈ pre, c.type ≠ Spec.IDAT) →
      ∃ s1, readAndProcessChunks libc s0 colorType = some (ERROR_DATA_INVALID, s1)) ∧
    ((∃ c ∈ pre, c.type = Spec.IDAT) →
      ∃ s1, readAndProcessChunks libc s0 colorType = some (SUCCESS, s1) ∧
        s1.file.pos = A.length + (Spec.encodeChunks pre).length + 8) := by
  obtain ⟨h1, h2⟩ := readAndProcessChunksLoop_chunks libc colorType pre s0 A
    (Spec.be32 n ++ Spec.IEND ++ B) ((s0.file.content.length - pre.length) + 1) hfile hpre hgr
  have hfuel : s0.file.content.length + 1 =
      pre.length + ((s0.file.content.length - pre.length) + 1) := by
    have := length_le_encodeChunks pre
    rw [hfile]
    simp only [List.length_append]
    omega
  have h2b : (pre.foldl Spec.absorb s0).file =
      ⟨(A ++ Spec.encodeChunks pre) ++ (Spec.be32 n ++ Spec.IEND ++ B),
        (A ++ Spec.encodeChunks pre).length, false⟩ := by
    rw [h2, List.length_append]
  have hbody := readAndProcessChunksBody_iend libc colorType (pre.foldl Spec.absorb s0)
    (A ++ Spec.encodeChunks pre) B n hn h2b
  have hres : readAndProcessChunks libc s0 colorType =
      some (if (pre.foldl Spec.absorb s0).buffer = none then ERROR_DATA_INVALID else SUCCESS,
        { (pre.foldl Spec.absorb s0) with
          file := ⟨(A ++ Spec.encodeChunks pre) ++ (Spec.be32 n ++ Spec.IEND ++ B),
            (A ++ Spec.encodeChunks pre).length + 8, false⟩ }) := by
    unfold readAndProcessChunks
    rw [hfuel, h1]
    simp only [readAndProcessChunksLoop, feof, h2, hbody]
    rfl
  have hnone := foldl_absorb_buffer_none pre s0
  constructor
  · intro hno
    rw [hres, if_pos (hnone.mpr ⟨hbuf, hno⟩)]
    exact ⟨_, rfl⟩
  · intro ⟨c, hc, hI⟩
    rw [hres, if_neg (fun h => (hnone.mp h).2 c hc hI)]
    exact ⟨_, rfl, by simp [List.length_append]⟩

/-- C10, amended, on the streams `gAMA`, `IEND` and `gAMA`, `IDAT`,
`IEND`. -/
theorem readAndProcessChunks_iend_witness :
    (∀ c ∈ [sampleGama, sampleIdat],
      c.WellFormed ∧ c.type ≠ Spec.IEND ∧ (c.type = Spec.PLTE → (0 : Nat) = 3)) ∧
    Spec.blocksGranted sampleLibc [sampleGama, sampleIdat] false 0 = true ∧
    (∃ c ∈ [sampleGama, sampleIdat], c.type = Spec.IDAT) ∧
    (readAndProcessChunks sampleLibc
      (sampleStart (Spec.encodeChunks [sampleGama, sampleIend])) 0).map Prod.fst =
      some ERROR_DATA_INVALID ∧
    ∃ s1, readAndProcessChunks sampleLibc
        (sampleStart (Spec.encodeChunks [sampleGama, sampleIdat, sampleIend])) 0 =
        some (SUCCESS, s1) ∧
      s1.file.pos = ([] : List Nat).length +
        (Spec.encodeChunks [sampleGama, sampleIdat]).length + 8 :=
  ⟨by decide, by decide, by decide, by decide,
    (readAndProcessChunks_iend sampleLibc 0
      (sampleStart (Spec.encodeChunks [sampleGama, sampleIdat, sampleIend]))
      [sampleGama, sampleIdat] [] [174, 66, 96, 130] 0
      (by decide) (by decide) (by decide) (by decide) (by decide)).2 (by decide)⟩

/-! ## The pipeline -/

/-- C8, the code on a colour type 3 file with `IHDR`, `IDAT`, `IEND` and no
`PLTE`: `main` has no check for the missing palette and goes on to
`getPNMFormat`, which reads the uninitialised `plte.data_size`.  When that
holds 0 the pipeline continues: the decompressor is called (its failure is
what `main` returns), and when it succeeds `main` returns `SUCCESS` and has
written a `P5` header.  When it holds 1 `main` returns
`ERROR_DATA_INVALID`, but from the test of the size, not from a check for
the palette. -/
theorem main_missing_palette :
    main sampleLibc (sampleLocals 0) sampleInflateFails 3 (some samplePngNoPalette) true =
      some (ERROR_OUT_OF_MEMORY, none) ∧
    main sampleLibc (sampleLocals 0) sampleInflate 3 (some samplePngNoPalette) true =
      some (SUCCESS, some (textBytes "P5\n1 1\n255\n")) ∧
    main sampleLibc (sampleLocals 1) sampleInflate 3 (some samplePngNoPalette) true =
      some (ERROR_DATA_INVALID, none) := by
  refine ⟨by decide, by decide, by decide⟩

/-! ## `readAndProcessChunks` returns -/

theorem fread_content (f : FILE) (n : Nat) :
    (fread f n).2.content = f.content ∧ (fread f n).2.pos = f.pos + (fread f n).1.length ∧
      f.pos + (fread f n).1.length ≤ max f.pos f.content.length := by
  unfold fread
  refine ⟨rfl, rfl, ?_⟩
  simp only [List.length_take, List.length_drop]
  omega

/-- A successful `readChunk` has read eight bytes that the file holds. -/
theorem readChunk_success (f : FILE) (h : (readChunk f).1 = SUCCESS) :
    (readChunk f).2.2.2.content = f.content ∧ (readChunk f).2.2.2.pos = f.pos + 8 ∧
      f.pos + 8 ≤ f.content.length := by
  obtain ⟨a1, a2, a3⟩ := fread_content f 4
  obtain ⟨b1, b2, b3⟩ := fread_content (fread f 4).2 4
  unfold readChunk at h ⊢
  simp only [] at h ⊢
  by_cases h1 : (fread f 4).1.length = 4
  · by_cases h2 : (fread (fread f 4).2 4).1.length = 4
    · simp only [h1, h2, ne_eq, not_true_eq_false, if_false]
      rw [a1] at b1
      rw [a1, a2, h1, h2] at b3
      rw [a2, h1, h2] at b2
      rw [h1] at a3
      refine ⟨b1, by omega, by omega⟩
    · simp [h1, h2] at h
  · simp [h1] at h

/-- A pass of the chunk loop that goes round again has read eight bytes of
the file and left the stream at or behind them. -/
theorem readAndProcessChunksBody_progress (libc : Libc) (colorType : Nat) (s s1 : Assembly)
    (h : readAndProcessChunksBody libc colorType s = Sum.inr s1) :
    s1.file.content = s.file.content ∧ s.file.pos + 8 ≤ s.file.content.length ∧
      s.file.pos + 8 ≤ s1.file.pos := by
  by_cases herr : (readChunk s.file).1 = SUCCESS
  · obtain ⟨c1, c2, c3⟩ := readChunk_success s.file herr
    obtain ⟨-, d2, -⟩ := fread_content (readChunk s.file).2.2.2 (readChunk s.file).2.1
    unfold readAndProcessChunksBody at h
    simp only [herr, ne_eq, not_true_eq_false, if_false] at h
    split_ifs at h
    all_goals first
      | (cases h; done)
      | (injection h with h
         subst h
         simp only [fseek]
         refine ⟨?_, c3, ?_⟩
         · exact c1
         · first
             | (rw [d2, c2]; omega)
             | (rw [c2]; omega))
  · unfold readAndProcessChunksBody at h
    simp [herr] at h

/-- With more passes allowed than the file has bytes behind the position the
chunk loop returns. -/
theorem readAndProcessChunksLoop_returns (libc : Libc) (colorType : Nat) :
    ∀ (fuel : Nat) (s : Assembly), s.file.content.length - s.file.pos < fuel →
      ∃ r, readAndProcessChunksLoop libc colorType fuel s = some r := by
  intro fuel
  induction fuel with
  | zero => intro s h; omega
  | succ fuel ih =>
    intro s h
    unfold readAndProcessChunksLoop
    by_cases he : feof s.file = true
    · rw [if_pos he]
      exact ⟨_, rfl⟩
    · rw [if_neg he]
      cases hb : readAndProcessChunksBody libc colorType s with
      | inl r => exact ⟨r, rfl⟩
      | inr s1 =>
        obtain ⟨p1, p2, p3⟩ := readAndProcessChunksBody_progress libc colorType s s1 hb
        exact ih s1 (by rw [p1]; omega)

/-- The function `readAndProcessChunks` returns on every stream. -/
theorem readAndProcessChunks_returns (libc : Libc) (s : Assembly) (colorType : Nat) :
    ∃ r, readAndProcessChunks libc s colorType = some r :=
  readAndProcessChunksLoop_returns libc colorType _ s (by omega)

/-! ## Scanline reconstruction: frame and boundaries -/

/-- The row loop over `a + b` rows is the loop over the first `a` rows
followed, when these succeed, by the loop over the other `b`. -/
theorem applyFiltersLoop_split (rowSize bpp : Nat) :
    ∀ (a b r : Nat) (buf : List Nat),
      applyFiltersLoop rowSize bpp (a + b) r buf =
        if (applyFiltersLoop rowSize bpp a r buf).1 = SUCCESS then
          applyFiltersLoop rowSize bpp b (r + a) (applyFiltersLoop rowSize bpp a r buf).2
        else applyFiltersLoop rowSize bpp a r buf := by
  intro a
  induction a with
  | zero =>
    intro b r buf
    simp [applyFiltersLoop]
  | succ a ih =>
    intro b r buf
    have e : a + 1 + b = (a + b) + 1 := by omega
    rw [e]
    simp only [applyFiltersLoop]
    cases hrow : applyFiltersRow buf r rowSize bpp with
    | none => simp
    | some buf1 =>
      simp only []
      rw [ih b (r + 1) buf1]
      have e2 : r + 1 + a = r + (a + 1) := by omega
      rw [e2]

/-- C20: `applyFilters`, whether it returns `SUCCESS` or
`ERROR_DATA_INVALID`, keeps the length of the buffer, every tag byte
`r * stride`, `r < height`, and every byte from `height * stride` on; a byte
that changes is a data byte of a row whose tag is in 1..4.  So the tag found
at row `r` when the rows before it have been processed is the tag of the
input buffer. -/
theorem applyFilters_frame (buf : List Nat) (width height colorType : Nat)
    (h32 : height * (1 + width * bytesPerPixel colorType) < 4294967296)
    (hlen : height * (1 + width * bytesPerPixel colorType) ≤ buf.length) :
    (applyFilters buf width height colorType).2.length = buf.length ∧
    (∀ r, r < height →
      (applyFilters buf width height colorType).2.getD
        (r * (1 + width * bytesPerPixel colorType)) 0 =
      buf.getD (r * (1 + width * bytesPerPixel colorType)) 0) ∧
    (∀ j, height * (1 + width * bytesPerPixel colorType) ≤ j →
      (applyFilters buf width height colorType).2.getD j 0 = buf.getD j 0) ∧
    (∀ j, (applyFilters buf width height colorType).2.getD j 0 ≠ buf.getD j 0 →
      ∃ r i, r < height ∧ i < width * bytesPerPixel colorType ∧
        j = r * (1 + width * bytesPerPixel colorType) + 1 + i ∧
        1 ≤ buf.getD (r * (1 + width * bytesPerPixel colorType)) 0 ∧
        buf.getD (r * (1 + width * bytesPerPixel colorType)) 0 ≤ 4) ∧
    (∀ r, r < height →
      (applyFilters buf width r colorType).2.getD
        (r * (1 + width * bytesPerPixel colorType)) 0 =
      buf.getD (r * (1 + width * bytesPerPixel colorType)) 0) := by
  obtain ⟨k1, k2, -, -⟩ := applyFilters_spec buf width height colorType h32 hlen
  have hsucc : ∀ k, (k + 1) * (1 + width * bytesPerPixel colorType) =
      k * (1 + width * bytesPerPixel colorType) + (1 + width * bytesPerPixel colorType) :=
    fun k => Nat.succ_mul _ _
  refine ⟨k1, ?_, ?_, ?_, ?_⟩
  · intro r _
    apply k2
    intro k _ _ _ ⟨h3, h4⟩
    have hk : k < r := Nat.lt_of_mul_lt_mul_right h3
    have : (k + 1) * (1 + width * bytesPerPixel colorType) ≤
        r * (1 + width * bytesPerPixel colorType) := Nat.mul_le_mul_right _ hk
    omega
  · intro j hj
    apply k2
    intro k hk _ _ ⟨_, h4⟩
    have : (k + 1) * (1 + width * bytesPerPixel colorType) ≤
        height * (1 + width * bytesPerPixel colorType) := Nat.mul_le_mul_right _ hk
    omega
  · intro j hj
    by_contra hno
    apply hj
    apply k2
    intro k hk hk1 hk4 ⟨h3, h4⟩
    apply hno
    refine ⟨k, j - (k * (1 + width * bytesPerPixel colorType) + 1), hk, ?_, ?_, hk1, hk4⟩
    · have := hsucc k
      omega
    · omega
  · intro r hr
    have hle : r * (1 + width * bytesPerPixel colorType) ≤
        height * (1 + width * bytesPerPixel colorType) := Nat.mul_le_mul_right _ (by omega)
    obtain ⟨-, p2, -, -⟩ := applyFilters_spec buf width r colorType (by omega) (by omega)
    apply p2
    intro k hk _ _ ⟨_, h4⟩
    have : (k + 1) * (1 + width * bytesPerPixel colorType) ≤
        r * (1 + width * bytesPerPixel colorType) := Nat.mul_le_mul_right _ hk
    omega

/-- C20 on the sample whose second row has the tag 7: the call fails, the
tags are as before and the rows from the second on are untouched. -/
theorem applyFilters_frame_witness :
    3 * (1 + 1 * bytesPerPixel 0) < 4294967296 ∧
    3 * (1 + 1 * bytesPerPixel 0) ≤ sampleBadTag.length ∧
    applyFilters sampleBadTag 1 3 0 = (ERROR_DATA_INVALID, [1, 10, 7, 20, 2, 30]) ∧
    ∀ r, r < 3 →
      (applyFilters sampleBadTag 1 3 0).2.getD (r * (1 + 1 * bytesPerPixel 0)) 0 =
      sampleBadTag.getD (r * (1 + 1 * bytesPerPixel 0)) 0 :=
  ⟨by decide, by decide, by decide,
    (applyFilters_frame sampleBadTag 1 3 0 (by decide) (by decide)).2.1⟩

/-- The run of `applyFilters` over `height` rows passes through the state
that the run over the first `r` rows leaves. -/
theorem applyFilters_prefix (buf : List Nat) (width height colorType r : Nat) (hr : r ≤ height) :
    applyFilters buf width height colorType =
      if (applyFilters buf width r colorType).1 = SUCCESS then
        applyFiltersLoop (u32 (width * bytesPerPixel colorType)) (bytesPerPixel colorType)
          (height - r) r (applyFilters buf width r colorType).2
      else applyFilters buf width r colorType := by
  unfold applyFilters
  simp only []
  have e : height = r + (height - r) := by omega
  conv => lhs; rw [e]
  rw [applyFiltersLoop_split, Nat.zero_add]

/-- The test of eight bytes against eight values. -/
theorem signature_test (l : List Nat) (h : l.length = 8) (a b c d e f g k : Nat) :
    (l.getD 0 0 = a ∧ l.getD 1 0 = b ∧ l.getD 2 0 = c ∧ l.getD 3 0 = d ∧ l.getD 4 0 = e ∧
      l.getD 5 0 = f ∧ l.getD 6 0 = g ∧ l.getD 7 0 = k) ↔ l = [a, b, c, d, e, f, g, k] := by
  match l, h with
  | [x0, x1, x2, x3, x4, x5, x6, x7], _ => simp

/-- C12: `readPngSignature` returns `SUCCESS` if and only if the stream has
at least 8 bytes from its position on and the first 8 are
`89 50 4E 47 0D 0A 1A 0A`; any other outcome is `ERROR_DATA_INVALID`.  It
moves the position by the 8 bytes (by what is left, if the stream has fewer)
and no further. -/
theorem readPngSignature_spec (file : FILE) :
    ((readPngSignature file).1 = SUCCESS ↔
      (file.pos + 8 ≤ file.content.length ∧
        (file.content.drop file.pos).take 8 = [137, 80, 78, 71, 13, 10, 26, 10])) ∧
    ((readPngSignature file).1 ≠ SUCCESS → (readPngSignature file).1 = ERROR_DATA_INVALID) ∧
    (readPngSignature file).2.content = file.content ∧
    (readPngSignature file).2.pos = file.pos + min 8 (file.content.length - file.pos) ∧
    (file.pos + 8 ≤ file.content.length → (readPngSignature file).2.pos = file.pos + 8) := by
  have hlen : ((file.content.drop file.pos).take 8).length =
      min 8 (file.content.length - file.pos) := by
    simp only [List.length_take, List.length_drop]
  have h2 : (readPngSignature file).2 = (fread file 8).2 := by
    unfold readPngSignature
    simp only []
    split_ifs <;> rfl
  have hcode : (readPngSignature file).1 =
      if (file.content.drop file.pos).take 8 = [137, 80, 78, 71, 13, 10, 26, 10] then SUCCESS
      else ERROR_DATA_INVALID := by
    unfold readPngSignature fread
    simp only []
    by_cases h8 : ((file.content.drop file.pos).take 8).length = 8
    · have hst := signature_test _ h8 137 80 78 71 13 10 26 10
      simp only [h8, ne_eq, not_true_eq_false, if_false, hst]
      split_ifs <;> rfl
    · have hne : (file.content.drop file.pos).take 8 ≠ [137, 80, 78, 71, 13, 10, 26, 10] := by
        intro h
        rw [h] at h8
        exact h8 rfl
      simp only [h8, ne_eq, not_false_eq_true, if_true, hne, if_false]
  have hpos : (readPngSignature file).2.pos =
      file.pos + min 8 (file.content.length - file.pos) := by
    rw [h2, ← hlen]
    rfl
  refine ⟨⟨fun h => ?_, fun h => ?_⟩, fun h => ?_, ?_, hpos, fun h => ?_⟩
  · rw [hcode] at h
    by_cases hs : (file.content.drop file.pos).take 8 = [137, 80, 78, 71, 13, 10, 26, 10]
    · refine ⟨?_, hs⟩
      rw [hs] at hlen
      simp only [List.length_cons, List.length_nil] at hlen
      omega
    · rw [if_neg hs] at h
      exact absurd h (by decide)
  · rw [hcode, if_pos h.2]
  · rw [hcode] at h ⊢
    split_ifs at h ⊢
    · exact absurd rfl h
    · rfl
  · rw [h2]
    rfl
  · rw [hpos]
    omega

/-- C12 on three streams: the signature followed by further bytes, eight
bytes that differ from it in the last one, and a stream of four bytes. -/
theorem readPngSignature_spec_witness :
    readPngSignature ⟨[137, 80, 78, 71, 13, 10, 26, 10, 0, 0, 0, 13], 0, false⟩ =
      (SUCCESS, ⟨[137, 80, 78, 71, 13, 10, 26, 10, 0, 0, 0, 13], 8, false⟩) ∧
    readPngSignature ⟨[137, 80, 78, 71, 13, 10, 26, 11, 0, 0, 0, 13], 0, false⟩ =
      (ERROR_DATA_INVALID, ⟨[137, 80, 78, 71, 13, 10, 26, 11, 0, 0, 0, 13], 8, false⟩) ∧
    readPngSignature ⟨[137, 80, 78, 71], 0, false⟩ =
      (ERROR_DATA_INVALID, ⟨[137, 80, 78, 71], 4, true⟩) ∧
    (0 + 8 ≤ [137, 80, 78, 71, 13, 10, 26, 11, 0, 0, 0, 13].length) ∧
    (readPngSignature ⟨[137, 80, 78, 71, 13, 10, 26, 11, 0, 0, 0, 13], 0, false⟩).1 ≠ SUCCESS ∧
    (readPngSignature ⟨[137, 80, 78, 71, 13, 10, 26, 11, 0, 0, 0, 13], 0, false⟩).1 =
      ERROR_DATA_INVALID ∧
    (readPngSignature ⟨[137, 80, 78, 71, 13, 10, 26, 11, 0, 0, 0, 13], 0, false⟩).2.pos = 0 + 8 :=
  ⟨by decide, by decide, by decide, by decide, by decide,
    (readPngSignature_spec ⟨[137, 80, 78, 71, 13, 10, 26, 11, 0, 0, 0, 13], 0, false⟩).2.1
      (by decide),
    (readPngSignature_spec ⟨[137, 80, 78, 71, 13, 10, 26, 11, 0, 0, 0, 13], 0, false⟩).2.2.2.2
      (by decide)⟩

/-! ## Format selection -/

/-- The loop of `getPNMFormat` stores 5 exactly when every entry it visits has
three equal bytes, and 6 otherwise. -/
theorem getPNMFormatLoop_spec (data : List Nat) :
    ∀ (n i : Nat),
      (getPNMFormatLoop data n i = 5 ↔
        ∀ k, i ≤ k → k < i + n →
          data.getD (k * 3) 0 = data.getD (k * 3 + 1) 0 ∧
          data.getD (k * 3) 0 = data.getD (k * 3 + 2) 0) ∧
      (getPNMFormatLoop data n i = 5 ∨ getPNMFormatLoop data n i = 6) := by
  intro n
  induction n with
  | zero =>
    intro i
    refine ⟨⟨fun _ k h1 h2 => by omega, fun _ => rfl⟩, Or.inl rfl⟩
  | succ n ih =>
    intro i
    obtain ⟨i1, i2⟩ := ih (i + 1)
    unfold getPNMFormatLoop
    by_cases hne : data.getD (i * 3) 0 ≠ data.getD (i * 3 + 1) 0 ∨
        data.getD (i * 3) 0 ≠ data.getD (i * 3 + 2) 0
    · rw [if_pos hne]
      refine ⟨⟨fun h => absurd h (by decide), fun h => ?_⟩, Or.inr rfl⟩
      have := h i (by omega) (by omega)
      rcases hne with h1 | h1
      · exact absurd this.1 h1
      · exact absurd this.2 h1
    · rw [if_neg hne]
      have heq : data.getD (i * 3) 0 = data.getD (i * 3 + 1) 0 ∧
          data.getD (i * 3) 0 = data.getD (i * 3 + 2) 0 := by
        constructor
        · by_contra h; exact hne (Or.inl h)
        · by_contra h; exact hne (Or.inr h)
      refine ⟨⟨fun h k h1 h2 => ?_, fun h => ?_⟩, i2⟩
      · by_cases hk : k = i
        · subst hk; exact heq
        · exact i1.mp h k (by omega) (by omega)
      · exact i1.mpr (fun k h1 h2 => h k (by omega) (by omega))

/-- C13: on a palette of `n` bytes `getPNMFormat` returns
`ERROR_DATA_INVALID` if and only if `n` is not a multiple of 3; otherwise it
returns `SUCCESS` and stores 5 if and only if each of the `n/3` entries has
R = G = B, and 6 otherwise.  The palette `[(10,10,10),(200,200,200)]` gives
5, the palette `[(10,20,30)]` gives 6. -/
theorem getPNMFormat_spec (payload type : List Nat) (format : Nat) :
    ((getPNMFormat { data_size := payload.length, type := type, data := some payload }
        format).1 = ERROR_DATA_INVALID ↔ payload.length % 3 ≠ 0) ∧
    (payload.length % 3 = 0 →
      (getPNMFormat { data_size := payload.length, type := type, data := some payload }
        format).1 = SUCCESS ∧
      ((getPNMFormat { data_size := payload.length, type := type, data := some payload }
          format).2 = 5 ↔
        ∀ i, i < payload.length / 3 →
          payload.getD (i * 3) 0 = payload.getD (i * 3 + 1) 0 ∧
          payload.getD (i * 3) 0 = payload.getD (i * 3 + 2) 0) ∧
      ((getPNMFormat { data_size := payload.length, type := type, data := some payload }
          format).2 ≠ 5 →
        (getPNMFormat { data_size := payload.length, type := type, data := some payload }
          format).2 = 6)) ∧
    getPNMFormat { data_size := 6, type := Spec.PLTE, data := some [10, 10, 10, 200, 200, 200] }
      format = (SUCCESS, 5) ∧
    getPNMFormat { data_size := 3, type := Spec.PLTE, data := some [10, 20, 30] } format =
      (SUCCESS, 6) := by
  refine ⟨?_, ?_, ?_, ?_⟩
  · unfold getPNMFormat
    simp only []
    split_ifs with h
    · exact ⟨fun _ => h, fun _ => rfl⟩
    · exact ⟨fun h1 => absurd h1 (by decide), fun h1 => absurd h1 h⟩
  · intro h3
    obtain ⟨l1, l2⟩ := getPNMFormatLoop_spec payload (payload.length / 3) 0
    have hval : getPNMFormat { data_size := payload.length, type := type, data := some payload }
        format = (SUCCESS, getPNMFormatLoop payload (payload.length / 3) 0) := by
      unfold getPNMFormat
      simp [h3]
    rw [hval]
    refine ⟨rfl, ?_, ?_⟩
    · simp only []
      rw [l1]
      constructor
      · intro h i hi
        exact h i (by omega) (by omega)
      · intro h k _ hk
        exact h k (by omega)
    · intro h5
      rcases l2 with h | h
      · exact absurd h h5
      · exact h
  · simp [getPNMFormat, getPNMFormatLoop]
  · simp [getPNMFormat, getPNMFormatLoop]

/-- C13 on the gray palette `[(10,10,10),(200,200,200)]`. -/
theorem getPNMFormat_spec_witness :
    [10, 10, 10, 200, 200, 200].length % 3 = 0 ∧
    (∀ i, i < [10, 10, 10, 200, 200, 200].length / 3 →
      [10, 10, 10, 200, 200, 200].getD (i * 3) 0 = [10, 10, 10, 200, 200, 200].getD (i * 3 + 1) 0 ∧
      [10, 10, 10, 200, 200, 200].getD (i * 3) 0 =
        [10, 10, 10, 200, 200, 200].getD (i * 3 + 2) 0) ∧
    getPNMFormat { data_size := 4, type := Spec.PLTE, data := some [1, 1, 1, 1] } 0 =
      (ERROR_DATA_INVALID, 0) ∧
    (getPNMFormat samplePalette 0).1 = SUCCESS ∧
    (getPNMFormat samplePalette 0).2 = 5 :=
  ⟨by decide, by decide, by decide,
    ((getPNMFormat_spec [10, 10, 10, 200, 200, 200] Spec.PLTE 0).2.1 (by decide)).1,
    ((getPNMFormat_spec [10, 10, 10, 200, 200, 200] Spec.PLTE 0).2.1 (by decide)).2.1.mpr
      (by decide)⟩

/-! ## The header chunk -/

/-- The result of `readAndProcessChunks` on a stream that holds, behind
well-formed chunks that are not `IEND`, are acceptable for the colour type
and got their blocks, a chunk header with the tag `IEND`. -/
theorem readAndProcessChunks_at_iend (libc : Libc) (colorType : Nat) (s0 : Assembly)
    (pre : List Spec.Chunk) (A B : List Nat) (n : Nat)
    (hn : n < 4294967296)
    (hfile : s0.file =
      ⟨A ++ Spec.encodeChunks pre ++ (Spec.be32 n ++ Spec.IEND ++ B), A.length, false⟩)
    (hpre : ∀ c ∈ pre, c.WellFormed ∧ c.type ≠ Spec.IEND ∧ (c.type = Spec.PLTE → colorType = 3))
    (hgr : Spec.blocksGranted libc pre s0.buffer.isSome s0.bufferSize = true) :
    readAndProcessChunks libc s0 colorType =
      some (if (pre.foldl Spec.absorb s0).buffer = none then ERROR_DATA_INVALID else SUCCESS,
        { (pre.foldl Spec.absorb s0) with
          file := ⟨(A ++ Spec.encodeChunks pre) ++ (Spec.be32 n ++ Spec.IEND ++ B),
            (A ++ Spec.encodeChunks pre).length + 8, false⟩ }) := by
  obtain ⟨h1, h2⟩ := readAndProcessChunksLoop_chunks libc colorType pre s0 A
    (Spec.be32 n ++ Spec.IEND ++ B) ((s0.file.content.length - pre.length) + 1) hfile hpre hgr
  have hfuel : s0.file.content.length + 1 =
      pre.length + ((s0.file.content.length - pre.length) + 1) := by
    have := length_le_encodeChunks pre
    rw [hfile]
    simp only [List.length_append]
    omega
  have h2b : (pre.foldl Spec.absorb s0).file =
      ⟨(A ++ Spec.encodeChunks pre) ++ (Spec.be32 n ++ Spec.IEND ++ B),
        (A ++ Spec.encodeChunks pre).length, false⟩ := by
    rw [h2, List.length_append]
  have hbody := readAndProcessChunksBody_iend libc colorType (pre.foldl Spec.absorb s0)
    (A ++ Spec.encodeChunks pre) B n hn h2b
  unfold readAndProcessChunks
  rw [hfuel, h1]
  simp only [readAndProcessChunksLoop, feof, h2, hbody]
  rfl

/-- One pass of the chunk loop at the header of a chunk that is none of
`IEND`, `IDAT`, `PLTE`: the stream moves behind the header by
`data_size + 4` as `unsigned int`, and nothing else changes. -/
theorem readAndProcessChunksBody_skip (libc : Libc) (colorType : Nat) (s : Assembly)
    (A type B : List Nat) (n : Nat) (hn : n < 4294967296) (ht : type.length = 4)
    (hE : type ≠ Spec.IEND) (hI : type ≠ Spec.IDAT) (hP : type ≠ Spec.PLTE)
    (hfile : s.file = ⟨A ++ (Spec.be32 n ++ type ++ B), A.length, false⟩) :
    readAndProcessChunksBody libc colorType s =
      Sum.inr { s with file := ⟨A ++ (Spec.be32 n ++ type ++ B), A.length + 8 + u32 (n + 4),
        false⟩ } := by
  have hrc := readChunk_at (A ++ (Spec.be32 n ++ type ++ B)) false A type B n hn ht rfl
  have e1 : type = [73, 69, 78, 68] ↔ type = Spec.IEND := Iff.rfl
  have e2 : type = [73, 68, 65, 84] ↔ type = Spec.IDAT := Iff.rfl
  have e3 : type = [80, 76, 84, 69] ↔ type = Spec.PLTE := Iff.rfl
  unfold readAndProcessChunksBody
  rw [hfile, hrc]
  simp only [ne_eq, not_true_eq_false, if_false, tag_test type ht]
  rw [if_neg (e1.not.mpr hE), if_neg (e2.not.mpr hI), if_neg (e3.not.mpr hP)]
  rfl

theorem absorb_core (s t : Assembly) (c : Spec.Chunk)
    (h1 : s.buffer = t.buffer) (h2 : s.bufferSize = t.bufferSize) (h3 : s.plte = t.plte) :
    (Spec.absorb s c).buffer = (Spec.absorb t c).buffer ∧
    (Spec.absorb s c).bufferSize = (Spec.absorb t c).bufferSize ∧
    (Spec.absorb s c).plte = (Spec.absorb t c).plte := by
  unfold Spec.absorb
  split_ifs <;> simp [h1, h2, h3]

theorem foldl_absorb_core (cs : List Spec.Chunk) :
    ∀ s t : Assembly, s.buffer = t.buffer → s.bufferSize = t.bufferSize → s.plte = t.plte →
      (cs.foldl Spec.absorb s).buffer = (cs.foldl Spec.absorb t).buffer ∧
      (cs.foldl Spec.absorb s).bufferSize = (cs.foldl Spec.absorb t).bufferSize ∧
      (cs.foldl Spec.absorb s).plte = (cs.foldl Spec.absorb t).plte := by
  induction cs with
  | nil => intro s t h1 h2 h3; exact ⟨h1, h2, h3⟩
  | cons c cs ih =>
    intro s t h1 h2 h3
    obtain ⟨a1, a2, a3⟩ := absorb_core s t c h1 h2 h3
    exact ih _ _ a1 a2 a3

theorem absorb_ancillary (s : Assembly) (c : Spec.Chunk)
    (hI : c.type ≠ Spec.IDAT) (hP : c.type ≠ Spec.PLTE) :
    (Spec.absorb s c).buffer = s.buffer ∧ (Spec.absorb s c).bufferSize = s.bufferSize ∧
    (Spec.absorb s c).plte = s.plte := by
  unfold Spec.absorb
  rw [if_neg hI, if_neg hP]
  exact ⟨rfl, rfl, rfl⟩

theorem blocksGranted_insert (libc : Libc) (c : Spec.Chunk) (Q : List Spec.Chunk)
    (hI : c.type ≠ Spec.IDAT) (hP : c.type ≠ Spec.PLTE) :
    ∀ (P : List Spec.Chunk) (b : Bool) (n : Nat),
      Spec.blocksGranted libc (P ++ c :: Q) b n = Spec.blocksGranted libc (P ++ Q) b n := by
  intro P
  induction P with
  | nil =>
    intro b n
    simp only [List.nil_append]
    rw [Spec.blocksGranted, if_neg hI, if_neg hP]
  | cons d ds ih =>
    intro b n
    simp only [List.cons_append, Spec.blocksGranted]
    split_ifs <;> simp [ih]

/-- C19 as stated fails: at a chunk header with the tag `tEXt` and the
length `FF FF FF FF` the sum `data_size + 4` wraps to 3, so the stream moves
3 bytes behind the 8-byte header, not `4294967295 + 4`; the loop goes on
with the `IDAT` chunk that lies there and returns `SUCCESS` behind its
`IEND`, at position 34. -/
theorem readAndProcessChunks_skip_wraps :
    readAndProcessChunksBody sampleLibc 0 (sampleStart sampleLongSkip) =
      Sum.inr ⟨⟨sampleLongSkip, 11, false⟩, none, 0, sampleNoPlte⟩ ∧
    (11 : Nat) ≠ 8 + (4294967295 + 4) ∧
    (readAndProcessChunks sampleLibc (sampleStart sampleLongSkip) 0).map
      (fun r => (r.1, r.2.buffer, r.2.file.pos)) = some (SUCCESS, some [120, 156, 1], 34) := by
  decide

/-- C19, amended: at the header of a chunk whose tag is none of `IDAT`,
`PLTE`, `IEND` and whose length `L` is below `2^32 - 4`, one pass of
`readAndProcessChunks` moves the stream exactly `L + 4` bytes behind the
8-byte header and changes neither `*buffer`, `*bufferSize` nor `*plte`;
and a stream into which such a chunk `c` (well-formed, payload and CRC
present) is inserted between two chunks gives the same return code, buffer,
size and palette as the stream without it. -/
theorem readAndProcessChunks_ancillary (libc : Libc) (colorType : Nat)
    (s : Assembly) (X type Y : List Nat) (L : Nat)
    (s0 t0 : Assembly) (P Q : List Spec.Chunk) (c : Spec.Chunk) (A B A2 B2 : List Nat)
    (n n2 : Nat)
    (hL : L < 4294967292) (ht : type.length = 4)
    (htE : type ≠ Spec.IEND) (htI : type ≠ Spec.IDAT) (htP : type ≠ Spec.PLTE)
    (hs : s.file = ⟨X ++ (Spec.be32 L ++ type ++ Y), X.length, false⟩)
    (hn : n < 4294967296) (hn2 : n2 < 4294967296)
    (hfile : s0.file =
      ⟨A ++ Spec.encodeChunks (P ++ Q) ++ (Spec.be32 n ++ Spec.IEND ++ B), A.length, false⟩)
    (hfile2 : t0.file =
      ⟨A2 ++ Spec.encodeChunks (P ++ [c] ++ Q) ++ (Spec.be32 n2 ++ Spec.IEND ++ B2), A2.length,
        false⟩)
    (hb : t0.buffer = s0.buffer) (hz : t0.bufferSize = s0.bufferSize) (hp : t0.plte = s0.plte)
    (hpre : ∀ d ∈ P ++ Q,
      d.WellFormed ∧ d.type ≠ Spec.IEND ∧ (d.type = Spec.PLTE → colorType = 3))
    (hgr : Spec.blocksGranted libc (P ++ Q) s0.buffer.isSome s0.bufferSize = true)
    (hc : c.WellFormed)
    (hE : c.type ≠ Spec.IEND) (hI : c.type ≠ Spec.IDAT) (hP : c.type ≠ Spec.PLTE) :
    readAndProcessChunksBody libc colorType s =
      Sum.inr ⟨⟨X ++ (Spec.be32 L ++ type ++ Y), X.length + 8 + (L + 4), false⟩,
        s.buffer, s.bufferSize, s.plte⟩ ∧
    ∃ code s1 t1,
      readAndProcessChunks libc s0 colorType = some (code, s1) ∧
      readAndProcessChunks libc t0 colorType = some (code, t1) ∧
      t1.buffer = s1.buffer ∧ t1.bufferSize = s1.bufferSize ∧ t1.plte = s1.plte := by
  constructor
  · rw [readAndProcessChunksBody_skip libc colorType s X type Y L (by omega) ht htE htI htP hs,
      u32_of_lt (show L + 4 < 4294967296 by omega)]
  · have hpre2 : ∀ d ∈ P ++ [c] ++ Q,
        d.WellFormed ∧ d.type ≠ Spec.IEND ∧ (d.type = Spec.PLTE → colorType = 3) := by
      intro d hd
      simp only [List.mem_append, List.mem_singleton] at hd
      rcases hd with (h | h) | h
      · exact hpre d (List.mem_append.mpr (Or.inl h))
      · subst h
        exact ⟨hc, hE, fun h => absurd h hP⟩
      · exact hpre d (List.mem_append.mpr (Or.inr h))
    have hlist : P ++ [c] ++ Q = P ++ c :: Q := by simp
    have hgr2 : Spec.blocksGranted libc (P ++ [c] ++ Q) t0.buffer.isSome t0.bufferSize = true := by
      rw [hb, hz, hlist, blocksGranted_insert libc c Q hI hP]
      exact hgr
    have r1 := readAndProcessChunks_at_iend libc colorType s0 (P ++ Q) A B n hn hfile hpre hgr
    have r2 := readAndProcessChunks_at_iend libc colorType t0 (P ++ [c] ++ Q) A2 B2 n2 hn2
      hfile2 hpre2 hgr2
    obtain ⟨a1, a2, a3⟩ := foldl_absorb_core P t0 s0 hb hz hp
    obtain ⟨b1, b2, b3⟩ := absorb_ancillary (P.foldl Spec.absorb t0) c hI hP
    obtain ⟨c1, c2, c3⟩ := foldl_absorb_core Q (Spec.absorb (P.foldl Spec.absorb t0) c)
      (P.foldl Spec.absorb s0) (by rw [b1, a1]) (by rw [b2, a2]) (by rw [b3, a3])
    have hf2 : (P ++ [c] ++ Q).foldl Spec.absorb t0 =
        Q.foldl Spec.absorb (Spec.absorb (P.foldl Spec.absorb t0) c) := by
      simp [List.foldl_append]
    have hf1 : (P ++ Q).foldl Spec.absorb s0 = Q.foldl Spec.absorb (P.foldl Spec.absorb s0) := by
      simp [List.foldl_append]
    rw [hf2] at r2
    rw [hf1] at r1
    rw [c1] at r2
    exact ⟨_, _, _, r1, r2, c1, c2, c3⟩

/-! ## The capacity of the output block -/

/-- C18 as stated fails: for the header values 30000x30000 the capacity
`width * height * 5` wraps to 205032704, below the 2700030000 bytes of the
raster at three bytes per pixel, and for 65536x65536 it wraps to 0; `main`
on a file that declares 65536x65536 pixels asks `malloc` for 0 bytes, which
a library that refuses exactly that request shows. -/
theorem uncompressedBufferSize_wraps :
    uncompressedBufferSize 30000 30000 = 205032704 ∧
    30000 * (1 + 30000 * 3) = 2700030000 ∧
    uncompressedBufferSize 30000 30000 < 30000 * (1 + 30000 * 3) ∧
    uncompressedBufferSize 65536 65536 = 0 ∧
    uncompressedBufferSize 65536 65536 < 65536 * (1 + 65536 * 3) ∧
    main sampleLibcNoEmpty (sampleLocals 0) sampleInflate 3 (some samplePngWide) true =
      some (ERROR_OUT_OF_MEMORY, none) := by
  decide

/-- C18, amended: for header values `width > 0` and `height` whose
product `width * height * 5` is below `2^32`, the capacity `main` computes
is `width * height * 5`, and it is at least the raster size
`height * (1 + width * 3)` of three bytes per pixel, hence at least the
raster size of every colour type. -/
theorem uncompressedBufferSize_bounds (width height : Nat) (hw : 0 < width)
    (h5 : width * height * 5 < 4294967296) :
    uncompressedBufferSize width height = width * height * 5 ∧
    height * (1 + width * 3) ≤ uncompressedBufferSize width height ∧
    ∀ colorType, height * (1 + width * bytesPerPixel colorType) ≤
      uncompressedBufferSize width height := by
  have hcap : uncompressedBufferSize width height = width * height * 5 := by
    unfold uncompressedBufferSize
    rw [u32_of_lt (show width * height < 4294967296 by omega), u32_of_lt h5]
  have hle : height ≤ width * height := Nat.le_mul_of_pos_left height hw
  have h3 : height * (1 + width * 3) = height + width * height * 3 := by ring
  have hmain : height * (1 + width * 3) ≤ width * height * 5 := by
    rw [h3]
    omega
  refine ⟨hcap, hcap ▸ hmain, ?_⟩
  intro colorType
  rw [hcap]
  refine le_trans (Nat.mul_le_mul_left height ?_) hmain
  unfold bytesPerPixel
  split <;> omega

/-- C18 at the header values 640x480: the capacity is 1536000 and the raster
of three bytes per pixel takes 922080 bytes. -/
theorem uncompressedBufferSize_bounds_witness :
    (0 < 640 ∧ 640 * 480 * 5 < 4294967296) ∧
    uncompressedBufferSize 640 480 = 1536000 ∧
    480 * (1 + 640 * 3) ≤ uncompressedBufferSize 640 480 :=
  ⟨by decide, (uncompressedBufferSize_bounds 640 480 (by decide) (by decide)).1,
    (uncompressedBufferSize_bounds 640 480 (by decide) (by decide)).2.1⟩

/-- C19 on the stream `gAMA`, `IDAT`, `IEND` against the stream `IDAT`,
`IEND`: the pass over the `gAMA` header moves the stream 16 bytes on, and
both streams give `SUCCESS` with the same buffer, size and palette. -/
theorem readAndProcessChunks_ancillary_witness :
    (sampleStart (Spec.encodeChunks [sampleGama, sampleIdat, sampleIend])).file.pos = 0 ∧
    readAndProcessChunksBody sampleLibc 0
        (sampleStart (Spec.encodeChunks [sampleGama, sampleIdat, sampleIend])) =
      Sum.inr ⟨⟨Spec.encodeChunks [sampleGama, sampleIdat, sampleIend], 16, false⟩, none, 0,
        sampleNoPlte⟩ ∧
    ∃ code s1 t1,
      readAndProcessChunks sampleLibc (sampleStart (Spec.encodeChunks [sampleIdat, sampleIend]))
        0 = some (code, s1) ∧
      readAndProcessChunks sampleLibc
        (sampleStart (Spec.encodeChunks [sampleGama, sampleIdat, sampleIend])) 0 =
        some (code, t1) ∧
      t1.buffer = s1.buffer ∧ t1.bufferSize = s1.bufferSize ∧ t1.plte = s1.plte :=
  ⟨by decide,
    (readAndProcessChunks_ancillary sampleLibc 0
      (sampleStart (Spec.encodeChunks [sampleGama, sampleIdat, sampleIend])) []
      sampleGama.type (sampleGama.payload ++ sampleGama.crc ++
        Spec.encodeChunks [sampleIdat, sampleIend]) 4
      (sampleStart (Spec.encodeChunks [sampleIdat, sampleIend]))
      (sampleStart (Spec.encodeChunks [sampleGama, sampleIdat, sampleIend]))
      [] [sampleIdat] sampleGama [] [174, 66, 96, 130] [] [174, 66, 96, 130] 0 0
      (by decide) (by decide) (by decide) (by decide) (by decide) (by decide) (by decide)
      (by decide) (by decide) (by decide) (by decide) (by decide) (by decide) (by decide)
      (by decide) (by decide) (by decide) (by decide) (by decide)).1,
    (readAndProcessChunks_ancillary sampleLibc 0
      (sampleStart (Spec.encodeChunks [sampleGama, sampleIdat, sampleIend])) []
      sampleGama.type (sampleGama.payload ++ sampleGama.crc ++
        Spec.encodeChunks [sampleIdat, sampleIend]) 4
      (sampleStart (Spec.encodeChunks [sampleIdat, sampleIend]))
      (sampleStart (Spec.encodeChunks [sampleGama, sampleIdat, sampleIend]))
      [] [sampleIdat] sampleGama [] [174, 66, 96, 130] [] [174, 66, 96, 130] 0 0
      (by decide) (by decide) (by decide) (by decide) (by decide) (by decide) (by decide)
      (by decide) (by decide) (by decide) (by decide) (by decide) (by decide) (by decide)
      (by decide) (by decide) (by decide) (by decide) (by decide)).2⟩

/-! ## The size of the compressed stream beyond 32 bits -/

end PngToPnm
